import Mathlib

/-!
Verification development for the codelotus robot planner/executor core.

The Python sources `path_planner.py` and `move_control.py` are shallowly
embedded below.  Float arithmetic is modelled by `ℝ` in the planner
(`math.hypot` becomes `Real.sqrt` of a sum of squares, `math.atan2` becomes
`Complex.arg`) and by `ℚ` in the motion executor, whose arithmetic uses only
field operations and rounding.  Python lists become `List`, dicts become
association lists, and the executor's interaction with the ESP32 (encoder
telemetry, motor commands) becomes an explicit sample stream plus an event
trace.  Wall-clock-bounded polling loops are modelled by an explicit poll
budget (the source sleeps 0.05 s per iteration of a loop bounded by
`max_turn_time`/`max_move_time`, so the loop is a bounded number of polls).
-/

/-- Python's `round` (round-half-to-even), as used by `int(round(x))` in
`move_control.py` and by `_astar`'s point-to-grid conversion in
`path_planner.py`. -/
def pyRound {α : Type} [LinearOrderedField α] [FloorRing α] [DecidableEq α] (x : α) : ℤ :=
  if Int.fract x = 1/2 then (if Even ⌊x⌋ then ⌊x⌋ else ⌊x⌋ + 1) else ⌊x + 1/2⌋

namespace MoveControl

/-- Events observable at the motor/encoder interface of `move_control.py`:
`reset_encoder_reference` (records the snapshot taken), `move_by_ticks`,
`send_motor` and `stop_motors`. -/
inductive Ev
  | resetRef (left right : ℤ)
  | moveByTicks (leftTicks rightTicks leftSpeed rightSpeed : ℤ)
  | sendMotor (left right : ℤ)
  | stopMotors
deriving DecidableEq

/-- The stream of `(m1, m2)` encoder samples returned by successive
`get_latest_encoders()` calls (the telemetry producer). -/
abbrev Env := ℕ → ℤ × ℤ

/-- Mutable controller state threaded through a run: how many telemetry
samples have been consumed, and the encoder reference pair
(`self.start_left`, `self.start_right`). -/
structure St where
  cursor : ℕ
  refLeft : ℤ
  refRight : ℤ
deriving DecidableEq

/-- The `RobotController` configuration fields read by `turn_to_angle` and
`move_distance`.  `turnPollBudget`/`movePollBudget` model the wall-clock
timeouts `max_turn_time`/`max_move_time` as a number of 0.05 s polls. -/
structure Config where
  rotationTolerance : ℚ
  distanceTolerance : ℚ
  turnSpeed : ℤ
  moveSpeed : ℤ
  turnPollBudget : ℕ
  movePollBudget : ℕ
  enableErrorCorrection : Bool
  maxCorrectionAttempts : ℕ
  sessionPulsesPerDegree : ℚ
  sessionPulsesPerCm : ℚ

/-- `get_encoder_position()`: consume the next telemetry sample. -/
def getEncoderPosition (env : Env) (cursor : ℕ) : (ℤ × ℤ) × ℕ :=
  (env cursor, cursor + 1)

/-- The polling loop of `turn_to_angle` (lines 239-258): poll the relative
encoder position until the average tick count reaches `target_ticks - 5`, a
stall is detected (progress `< 2` ticks for more than 10 consecutive polls),
or the poll budget (timeout) runs out.  Returns the telemetry cursor after
the loop. -/
def turnPollLoop (env : Env) (refL refR : ℤ) (targetTicks : ℤ)
    (lastCheck : ℚ) (stallCount : ℕ) : ℕ → ℕ → ℕ
  | 0, cursor => cursor
  | fuel + 1, cursor =>
    let enc := env cursor
    let cursor' := cursor + 1
    let relLeft := enc.1 - refL
    let relRight := enc.2 - refR
    let avgTicks : ℚ := ((|relLeft| : ℤ) + (|relRight| : ℤ) : ℚ) / 2
    if avgTicks ≥ (targetTicks : ℚ) - 5 then cursor'
    else if |avgTicks - lastCheck| < 2 then
      (if stallCount + 1 > 10 then cursor'
       else turnPollLoop env refL refR targetTicks avgTicks (stallCount + 1) fuel cursor')
    else turnPollLoop env refL refR targetTicks avgTicks 0 fuel cursor'

/-- Result of the non-correcting core of `turn_to_angle`/`move_distance`
(lines 210-277 / 440-506): the emitted events, the controller state, the
commanded direction and the signed target-minus-achieved error. -/
structure PrimResult where
  events : List Ev
  st : St
  direction : ℤ
  error : ℚ

/-- `turn_to_angle` lines 210-277: compute the tick target, reset the
encoder reference, issue `move_by_ticks`, poll to completion, stop the
motors, and measure the achieved rotation.  Assumes the caller has already
handled the `< 0.1°` no-op case. -/
def turnPrimary (cfg : Config) (env : Env) (st : St) (target : ℚ) : PrimResult :=
  let targetTicks : ℤ := pyRound (|target| * cfg.sessionPulsesPerDegree)
  let direction : ℤ := if target > 0 then 1 else -1
  let r0 := getEncoderPosition env st.cursor
  let refL := r0.1.1
  let refR := r0.1.2
  let leftTicks := direction * targetTicks
  let rightTicks := -direction * targetTicks
  let leftSpeed := direction * cfg.turnSpeed
  let rightSpeed := -direction * cfg.turnSpeed
  let c2 := turnPollLoop env refL refR targetTicks 0 0 cfg.turnPollBudget r0.2
  let r1 := getEncoderPosition env c2
  let finalTicks : ℚ := ((|r1.1.1 - refL| : ℤ) + (|r1.1.2 - refR| : ℤ) : ℚ) / 2
  let actual : ℚ := finalTicks / cfg.sessionPulsesPerDegree * (direction : ℚ)
  { events := [Ev.resetRef refL refR,
               Ev.moveByTicks leftTicks rightTicks leftSpeed rightSpeed,
               Ev.stopMotors],
    st := ⟨r1.2, refL, refR⟩,
    direction := direction,
    error := target - actual }

/-- `turn_to_angle` as executed while `self.enable_error_correction` is
`False` — exactly what the recursive corrective call at line 306 runs, since
line 304 clears the flag first: threshold check, one motion, tolerance
check, no correction (lines 285-287). -/
def turnToAngleNC (cfg : Config) (env : Env) (st : St) (target : ℚ) :
    Bool × List Ev × St :=
  if |target| < 1/10 then (true, [], st)
  else
    let r := turnPrimary cfg env st target
    if |r.error| ≤ cfg.rotationTolerance then (true, r.events, r.st)
    else (false, r.events, r.st)

/-- The correction loop of `turn_to_angle` (lines 292-327).  Each iteration
issues a corrective turn of `-error` via the correction-disabled entry point
(the source saves the flag, sets it `False`, recurses, restores), then
re-measures against the current encoder reference. -/
def turnCorrectionLoop (cfg : Config) (env : Env) (target : ℚ) (direction : ℤ) :
    ℕ → St → ℚ → List Ev → Bool × List Ev × St
  | 0, st, _, evs => (false, evs, st)
  | attempts + 1, st, error, evs =>
    let corr := -error
    if |corr| < 1/2 then (true, evs, st)
    else
      let r := turnToAngleNC cfg env st corr
      let evs' := evs ++ r.2.1
      if !r.1 then (false, evs', r.2.2)
      else
        let m := getEncoderPosition env r.2.2.cursor
        let finalTicks : ℚ :=
          ((|m.1.1 - r.2.2.refLeft| : ℤ) + (|m.1.2 - r.2.2.refRight| : ℤ) : ℚ) / 2
        let actual : ℚ := finalTicks / cfg.sessionPulsesPerDegree * (direction : ℚ)
        let error' := target - actual
        let st' : St := ⟨m.2, r.2.2.refLeft, r.2.2.refRight⟩
        if |error'| ≤ cfg.rotationTolerance then (true, evs', st')
        else turnCorrectionLoop cfg env target direction attempts st' error' evs'

/-- `RobotController.turn_to_angle` (lines 202-327): returns the success
flag together with the emitted event trace and the final controller
state. -/
def turnToAngle (cfg : Config) (env : Env) (st : St) (target : ℚ) :
    Bool × List Ev × St :=
  if |target| < 1/10 then (true, [], st)
  else
    let r := turnPrimary cfg env st target
    if |r.error| ≤ cfg.rotationTolerance then (true, r.events, r.st)
    else if !cfg.enableErrorCorrection then (false, r.events, r.st)
    else turnCorrectionLoop cfg env target r.direction cfg.maxCorrectionAttempts
      r.st r.error r.events

/-- The polling loop of `move_distance` (lines 467-486): identical structure
to the turn loop, with completion threshold `target_ticks - 10` and stall
threshold `< 5`. -/
def movePollLoop (env : Env) (refL refR : ℤ) (targetTicks : ℤ)
    (lastCheck : ℚ) (stallCount : ℕ) : ℕ → ℕ → ℕ
  | 0, cursor => cursor
  | fuel + 1, cursor =>
    let enc := env cursor
    let cursor' := cursor + 1
    let relLeft := enc.1 - refL
    let relRight := enc.2 - refR
    let avgTicks : ℚ := ((|relLeft| : ℤ) + (|relRight| : ℤ) : ℚ) / 2
    if avgTicks ≥ (targetTicks : ℚ) - 10 then cursor'
    else if |avgTicks - lastCheck| < 5 then
      (if stallCount + 1 > 10 then cursor'
       else movePollLoop env refL refR targetTicks avgTicks (stallCount + 1) fuel cursor')
    else movePollLoop env refL refR targetTicks avgTicks 0 fuel cursor'

/-- `move_distance` lines 440-506 (one motion plus measurement): both wheels
get the same signed ticks and speed. -/
def movePrimary (cfg : Config) (env : Env) (st : St) (target : ℚ) : PrimResult :=
  let targetTicks : ℤ := pyRound (|target| * cfg.sessionPulsesPerCm)
  let direction : ℤ := if target > 0 then 1 else -1
  let r0 := getEncoderPosition env st.cursor
  let refL := r0.1.1
  let refR := r0.1.2
  let ticks := direction * targetTicks
  let speed := direction * cfg.moveSpeed
  let c2 := movePollLoop env refL refR targetTicks 0 0 cfg.movePollBudget r0.2
  let r1 := getEncoderPosition env c2
  let finalTicks : ℚ := ((|r1.1.1 - refL| : ℤ) + (|r1.1.2 - refR| : ℤ) : ℚ) / 2
  let actual : ℚ := finalTicks / cfg.sessionPulsesPerCm * (direction : ℚ)
  { events := [Ev.resetRef refL refR,
               Ev.moveByTicks ticks ticks speed speed,
               Ev.stopMotors],
    st := ⟨r1.2, refL, refR⟩,
    direction := direction,
    error := target - actual }

/-- `move_distance` as executed while `self.enable_error_correction` is
`False` (the corrective call at line 535 runs this, line 534 having cleared
the flag). -/
def moveDistanceNC (cfg : Config) (env : Env) (st : St) (target : ℚ) :
    Bool × List Ev × St :=
  if |target| < 1/10 then (true, [], st)
  else
    let r := movePrimary cfg env st target
    if |r.error| ≤ cfg.distanceTolerance then (true, r.events, r.st)
    else (false, r.events, r.st)

/-- The correction loop of `move_distance` (lines 521-556); the corrective
move is `error` itself (not negated: positive error means undershoot). -/
def moveCorrectionLoop (cfg : Config) (env : Env) (target : ℚ) (direction : ℤ) :
    ℕ → St → ℚ → List Ev → Bool × List Ev × St
  | 0, st, _, evs => (false, evs, st)
  | attempts + 1, st, error, evs =>
    let corr := error
    if |corr| < 1/2 then (true, evs, st)
    else
      let r := moveDistanceNC cfg env st corr
      let evs' := evs ++ r.2.1
      if !r.1 then (false, evs', r.2.2)
      else
        let m := getEncoderPosition env r.2.2.cursor
        let finalTicks : ℚ :=
          ((|m.1.1 - r.2.2.refLeft| : ℤ) + (|m.1.2 - r.2.2.refRight| : ℤ) : ℚ) / 2
        let actual : ℚ := finalTicks / cfg.sessionPulsesPerCm * (direction : ℚ)
        let error' := target - actual
        let st' : St := ⟨m.2, r.2.2.refLeft, r.2.2.refRight⟩
        if |error'| ≤ cfg.distanceTolerance then (true, evs', st')
        else moveCorrectionLoop cfg env target direction attempts st' error' evs'

/-- `RobotController.move_distance` (lines 434-556). -/
def moveDistance (cfg : Config) (env : Env) (st : St) (target : ℚ) :
    Bool × List Ev × St :=
  if |target| < 1/10 then (true, [], st)
  else
    let r := movePrimary cfg env st target
    if |r.error| ≤ cfg.distanceTolerance then (true, r.events, r.st)
    else if !cfg.enableErrorCorrection then (false, r.events, r.st)
    else moveCorrectionLoop cfg env target r.direction cfg.maxCorrectionAttempts
      r.st r.error r.events

/-- Whether an event is a `move_by_ticks` motion request. -/
def isMotionRequest : Ev → Bool
  | Ev.moveByTicks _ _ _ _ => true
  | _ => false

/-- Number of motion requests in a trace. -/
def motionCount (evs : List Ev) : ℕ := evs.countP isMotionRequest

lemma motionCount_append (a b : List Ev) :
    motionCount (a ++ b) = motionCount a + motionCount b := by
  simp [motionCount, List.countP_append]

lemma turnPrimary_events_getLast (cfg : Config) (env : Env) (st : St) (t : ℚ) :
    (turnPrimary cfg env st t).events.getLast? = some Ev.stopMotors := rfl

lemma turnPrimary_motionCount (cfg : Config) (env : Env) (st : St) (t : ℚ) :
    motionCount (turnPrimary cfg env st t).events = 1 := rfl

lemma movePrimary_events_getLast (cfg : Config) (env : Env) (st : St) (t : ℚ) :
    (movePrimary cfg env st t).events.getLast? = some Ev.stopMotors := rfl

lemma movePrimary_motionCount (cfg : Config) (env : Env) (st : St) (t : ℚ) :
    motionCount (movePrimary cfg env st t).events = 1 := rfl

lemma turnToAngleNC_motionCount (cfg : Config) (env : Env) (st : St) (t : ℚ) :
    motionCount (turnToAngleNC cfg env st t).2.1 ≤ 1 := by
  simp only [turnToAngleNC]
  by_cases h : |t| < (1/10 : ℚ)
  · rw [if_pos h]
    simp [motionCount]
  · rw [if_neg h]
    by_cases h2 : |(turnPrimary cfg env st t).error| ≤ cfg.rotationTolerance
    · rw [if_pos h2]
      simp [turnPrimary_motionCount]
    · rw [if_neg h2]
      simp [turnPrimary_motionCount]

lemma moveDistanceNC_motionCount (cfg : Config) (env : Env) (st : St) (t : ℚ) :
    motionCount (moveDistanceNC cfg env st t).2.1 ≤ 1 := by
  simp only [moveDistanceNC]
  by_cases h : |t| < (1/10 : ℚ)
  · rw [if_pos h]
    simp [motionCount]
  · rw [if_neg h]
    by_cases h2 : |(movePrimary cfg env st t).error| ≤ cfg.distanceTolerance
    · rw [if_pos h2]
      simp [movePrimary_motionCount]
    · rw [if_neg h2]
      simp [movePrimary_motionCount]

lemma turnToAngleNC_trace_getLast (cfg : Config) (env : Env) (st : St) (t : ℚ)
    (h : ¬ |t| < (1/10 : ℚ)) :
    (turnToAngleNC cfg env st t).2.1.getLast? = some Ev.stopMotors := by
  simp only [turnToAngleNC]
  rw [if_neg h]
  by_cases h2 : |(turnPrimary cfg env st t).error| ≤ cfg.rotationTolerance
  · rw [if_pos h2]
    exact turnPrimary_events_getLast cfg env st t
  · rw [if_neg h2]
    exact turnPrimary_events_getLast cfg env st t

lemma moveDistanceNC_trace_getLast (cfg : Config) (env : Env) (st : St) (t : ℚ)
    (h : ¬ |t| < (1/10 : ℚ)) :
    (moveDistanceNC cfg env st t).2.1.getLast? = some Ev.stopMotors := by
  simp only [moveDistanceNC]
  rw [if_neg h]
  by_cases h2 : |(movePrimary cfg env st t).error| ≤ cfg.distanceTolerance
  · rw [if_pos h2]
    exact movePrimary_events_getLast cfg env st t
  · rw [if_neg h2]
    exact movePrimary_events_getLast cfg env st t

lemma getLast?_append_right {α : Type} (l₁ l₂ : List α) (h : l₂ ≠ []) :
    (l₁ ++ l₂).getLast? = l₂.getLast? :=
  List.getLast?_append_of_ne_nil l₁ h

lemma trace_ne_nil_of_getLast (l : List Ev) (h : l.getLast? = some Ev.stopMotors) :
    l ≠ [] := by
  intro hnil
  rw [hnil] at h
  simp at h

lemma turnCorrectionLoop_motionCount (cfg : Config) (env : Env) (target : ℚ) (dir : ℤ) :
    ∀ (attempts : ℕ) (st : St) (error : ℚ) (evs : List Ev),
      motionCount (turnCorrectionLoop cfg env target dir attempts st error evs).2.1 ≤
        motionCount evs + attempts := by
  intro attempts
  induction attempts with
  | zero =>
    intro st error evs
    simp [turnCorrectionLoop]
  | succ n ih =>
    intro st error evs
    rw [turnCorrectionLoop]
    dsimp only
    split
    · exact Nat.le_add_right _ _
    · have hnc := turnToAngleNC_motionCount cfg env st (-error)
      split
      · simp only [motionCount_append]
        omega
      · split
        · simp only [motionCount_append]
          omega
        · calc motionCount (turnCorrectionLoop cfg env target dir n _ _
                (evs ++ (turnToAngleNC cfg env st (-error)).2.1)).2.1
              ≤ motionCount (evs ++ (turnToAngleNC cfg env st (-error)).2.1) + n := ih _ _ _
            _ ≤ motionCount evs + (n + 1) := by
                simp only [motionCount_append]; omega

lemma turnCorrectionLoop_getLast (cfg : Config) (env : Env) (target : ℚ) (dir : ℤ) :
    ∀ (attempts : ℕ) (st : St) (error : ℚ) (evs : List Ev),
      evs.getLast? = some Ev.stopMotors →
      (turnCorrectionLoop cfg env target dir attempts st error evs).2.1.getLast? =
        some Ev.stopMotors := by
  intro attempts
  induction attempts with
  | zero =>
    intro st error evs hevs
    simpa [turnCorrectionLoop] using hevs
  | succ n ih =>
    intro st error evs hevs
    rw [turnCorrectionLoop]
    dsimp only
    have hq : ((1 : ℚ)/10) < 1/2 := by norm_num
    split
    · exact hevs
    · rename_i hcorr
      have hbig : ¬ |(-error : ℚ)| < 1/10 := fun hlt => hcorr (lt_trans hlt hq)
      have htr := turnToAngleNC_trace_getLast cfg env st (-error) hbig
      have happ : (evs ++ (turnToAngleNC cfg env st (-error)).2.1).getLast? =
          some Ev.stopMotors := by
        rw [getLast?_append_right _ _ (trace_ne_nil_of_getLast _ htr)]
        exact htr
      split
      · exact happ
      · split
        · exact happ
        · exact ih _ _ _ happ

lemma moveCorrectionLoop_getLast (cfg : Config) (env : Env) (target : ℚ) (dir : ℤ) :
    ∀ (attempts : ℕ) (st : St) (error : ℚ) (evs : List Ev),
      evs.getLast? = some Ev.stopMotors →
      (moveCorrectionLoop cfg env target dir attempts st error evs).2.1.getLast? =
        some Ev.stopMotors := by
  intro attempts
  induction attempts with
  | zero =>
    intro st error evs hevs
    simpa [moveCorrectionLoop] using hevs
  | succ n ih =>
    intro st error evs hevs
    rw [moveCorrectionLoop]
    dsimp only
    have hq : ((1 : ℚ)/10) < 1/2 := by norm_num
    split
    · exact hevs
    · rename_i hcorr
      have hbig : ¬ |(error : ℚ)| < 1/10 := fun hlt => hcorr (lt_trans hlt hq)
      have htr := moveDistanceNC_trace_getLast cfg env st error hbig
      have happ : (evs ++ (moveDistanceNC cfg env st error).2.1).getLast? =
          some Ev.stopMotors := by
        rw [getLast?_append_right _ _ (trace_ne_nil_of_getLast _ htr)]
        exact htr
      split
      · exact happ
      · split
        · exact happ
        · exact ih _ _ _ happ

/-- A concrete controller configuration (the `__init__` defaults of
`RobotController` with realistic tolerances and the default
`PULSES_PER_DEGREE = 22.3`, a rational stand-in for the persisted
pulses-per-cm, and the 10 s / 30 s timeouts expressed as 0.05 s polls). -/
def exampleConfig : Config :=
  { rotationTolerance := 5, distanceTolerance := 5, turnSpeed := 45, moveSpeed := 45,
    turnPollBudget := 200, movePollBudget := 600, enableErrorCorrection := true,
    maxCorrectionAttempts := 5, sessionPulsesPerDegree := 223/10,
    sessionPulsesPerCm := 408 }

/-- A telemetry stream whose encoders never move (a fully stalled robot). -/
def exampleEnv : Env := fun _ => (0, 0)

/-- Initial controller state: no samples consumed, zero reference. -/
def exampleSt : St := ⟨0, 0, 0⟩

/-- C7: `turn_to_angle` terminates with bounded correction: a
correction-disabled call (which is exactly what each corrective sub-call
runs, so the recursion never nests beyond one corrective level) issues at
most one motion request, and a correction-enabled call issues at most
`1 + max_correction_attempts` motion requests in total. -/
theorem turnToAngle_correction_bounds (cfg : Config) (env : Env) (st : St) (target : ℚ) :
    motionCount (turnToAngleNC cfg env st target).2.1 ≤ 1 ∧
    motionCount (turnToAngle cfg env st target).2.1 ≤ 1 + cfg.maxCorrectionAttempts := by
  refine ⟨turnToAngleNC_motionCount cfg env st target, ?_⟩
  simp only [turnToAngle]
  by_cases h : |target| < (1/10 : ℚ)
  · rw [if_pos h]
    simp [motionCount]
  · rw [if_neg h]
    by_cases h2 : |(turnPrimary cfg env st target).error| ≤ cfg.rotationTolerance
    · rw [if_pos h2]
      simp [turnPrimary_motionCount]
    · rw [if_neg h2]
      cases hec : cfg.enableErrorCorrection
      · simp only [Bool.not_false, if_pos rfl]
        simp [turnPrimary_motionCount]
      · simp only [Bool.not_true]
        rw [if_neg (by simp)]
        calc motionCount (turnCorrectionLoop cfg env target
                (turnPrimary cfg env st target).direction cfg.maxCorrectionAttempts
                (turnPrimary cfg env st target).st (turnPrimary cfg env st target).error
                (turnPrimary cfg env st target).events).2.1
            ≤ motionCount (turnPrimary cfg env st target).events +
                cfg.maxCorrectionAttempts := turnCorrectionLoop_motionCount _ _ _ _ _ _ _ _
          _ = 1 + cfg.maxCorrectionAttempts := by
              rw [turnPrimary_motionCount]

/-- C8 (counterexample): the sub-0.1° no-op exit path of `turn_to_angle`
returns success without ever issuing a stop command (or any command at
all), so it is not true that a stop is issued on every exit path. -/
theorem turnToAngle_noop_no_stop :
    (turnToAngle exampleConfig exampleEnv exampleSt (1/20)).1 = true ∧
    Ev.stopMotors ∉ (turnToAngle exampleConfig exampleEnv exampleSt (1/20)).2.1 := by
  have h : turnToAngle exampleConfig exampleEnv exampleSt (1/20) = (true, [], exampleSt) := by
    simp only [turnToAngle]
    rw [if_pos (by rw [abs_of_pos (by norm_num : (0:ℚ) < 1/20)]; norm_num)]
  rw [h]
  exact ⟨rfl, by simp⟩

/-- C8 (amended): on every exit path of `turn_to_angle` and `move_distance`
that issued any command at all (i.e. whose event trace is nonempty), the
last emitted event is a motor stop; the sub-0.1 no-op paths return success
with an empty trace. -/
theorem primitives_trace_ends_with_stop (cfg : Config) (env : Env) (st : St) (t d : ℚ) :
    ((turnToAngle cfg env st t).2.1 ≠ [] →
      (turnToAngle cfg env st t).2.1.getLast? = some Ev.stopMotors) ∧
    ((moveDistance cfg env st d).2.1 ≠ [] →
      (moveDistance cfg env st d).2.1.getLast? = some Ev.stopMotors) := by
  constructor
  · intro hne
    simp only [turnToAngle]
    by_cases h : |t| < (1/10 : ℚ)
    · simp only [turnToAngle, if_pos h] at hne
      exact absurd rfl hne
    · rw [if_neg h]
      by_cases h2 : |(turnPrimary cfg env st t).error| ≤ cfg.rotationTolerance
      · rw [if_pos h2]
        exact turnPrimary_events_getLast cfg env st t
      · rw [if_neg h2]
        cases hec : cfg.enableErrorCorrection
        · simp only [Bool.not_false, if_pos rfl]
          exact turnPrimary_events_getLast cfg env st t
        · simp only [Bool.not_true]
          rw [if_neg (by simp)]
          exact turnCorrectionLoop_getLast cfg env t _ _ _ _ _
            (turnPrimary_events_getLast cfg env st t)
  · intro hne
    simp only [moveDistance]
    by_cases h : |d| < (1/10 : ℚ)
    · simp only [moveDistance, if_pos h] at hne
      exact absurd rfl hne
    · rw [if_neg h]
      by_cases h2 : |(movePrimary cfg env st d).error| ≤ cfg.distanceTolerance
      · rw [if_pos h2]
        exact movePrimary_events_getLast cfg env st d
      · rw [if_neg h2]
        cases hec : cfg.enableErrorCorrection
        · simp only [Bool.not_false, if_pos rfl]
          exact movePrimary_events_getLast cfg env st d
        · simp only [Bool.not_true]
          rw [if_neg (by simp)]
          exact moveCorrectionLoop_getLast cfg env d _ _ _ _ _
            (movePrimary_events_getLast cfg env st d)

lemma turnToAngle_trace_ne_nil (cfg : Config) (env : Env) (st : St) (t : ℚ)
    (h : ¬ |t| < (1/10 : ℚ)) : (turnToAngle cfg env st t).2.1 ≠ [] := by
  simp only [turnToAngle]
  rw [if_neg h]
  by_cases h2 : |(turnPrimary cfg env st t).error| ≤ cfg.rotationTolerance
  · rw [if_pos h2]
    simp [turnPrimary]
  · rw [if_neg h2]
    cases hec : cfg.enableErrorCorrection
    · simp only [Bool.not_false, if_pos rfl]
      simp [turnPrimary]
    · simp only [Bool.not_true]
      rw [if_neg (by simp)]
      exact trace_ne_nil_of_getLast _ (turnCorrectionLoop_getLast cfg env t _ _ _ _ _
        (turnPrimary_events_getLast cfg env st t))

lemma moveDistance_trace_ne_nil (cfg : Config) (env : Env) (st : St) (t : ℚ)
    (h : ¬ |t| < (1/10 : ℚ)) : (moveDistance cfg env st t).2.1 ≠ [] := by
  simp only [moveDistance]
  rw [if_neg h]
  by_cases h2 : |(movePrimary cfg env st t).error| ≤ cfg.distanceTolerance
  · rw [if_pos h2]
    simp [movePrimary]
  · rw [if_neg h2]
    cases hec : cfg.enableErrorCorrection
    · simp only [Bool.not_false, if_pos rfl]
      simp [movePrimary]
    · simp only [Bool.not_true]
      rw [if_neg (by simp)]
      exact trace_ne_nil_of_getLast _ (moveCorrectionLoop_getLast cfg env t _ _ _ _ _
        (movePrimary_events_getLast cfg env st t))

/-- C8 (witness): a 90° turn and a 50 cm move on a stalled robot both emit
nonempty traces whose final event is the motor stop. -/
theorem primitives_trace_ends_with_stop_witness :
    (turnToAngle exampleConfig exampleEnv exampleSt 90).2.1.getLast? =
      some Ev.stopMotors ∧
    (moveDistance exampleConfig exampleEnv exampleSt 50).2.1.getLast? =
      some Ev.stopMotors :=
  ⟨(primitives_trace_ends_with_stop exampleConfig exampleEnv exampleSt 90 50).1
      (turnToAngle_trace_ne_nil _ _ _ _ (by rw [abs_of_pos]; norm_num; norm_num)),
   (primitives_trace_ends_with_stop exampleConfig exampleEnv exampleSt 90 50).2
      (moveDistance_trace_ne_nil _ _ _ _ (by rw [abs_of_pos]; norm_num; norm_num))⟩

/-- C10: a commanded turn smaller than 0.1° in magnitude is a
reported-successful no-op: `turn_to_angle` returns `True` with an empty
event trace (no motion request, no motor command, no encoder-reference
reset) and consumes no telemetry. -/
theorem turnToAngle_small_angle_noop (cfg : Config) (env : Env) (st : St) (target : ℚ)
    (h : |target| < 1/10) : turnToAngle cfg env st target = (true, [], st) := by
  simp only [turnToAngle]
  rw [if_pos h]

/-- C10 (witness): a commanded 0.05° turn is below the threshold and is a
successful no-op. -/
theorem turnToAngle_small_angle_noop_witness :
    |(1/20 : ℚ)| < 1/10 ∧
    turnToAngle exampleConfig exampleEnv exampleSt (1/20) = (true, [], exampleSt) :=
  ⟨by rw [abs_of_pos (by norm_num : (0:ℚ) < 1/20)]; norm_num,
   turnToAngle_small_angle_noop exampleConfig exampleEnv exampleSt (1/20)
     (by rw [abs_of_pos (by norm_num : (0:ℚ) < 1/20)]; norm_num)⟩

end MoveControl

namespace PathPlanner

/-- Arena-local 2D point in centimetres (origin top-left, Y downward). -/
abbrev Pt := ℝ × ℝ

/-- Default point for list-indexing defaults.  Python would raise on an
out-of-range access; every access below is in range on reachable states. -/
def origin : Pt := (0, 0)

/-- Arena width constant of `path_planner.py`. -/
def ARENA_WIDTH_CM : ℝ := 118.1

/-- Arena height constant of `path_planner.py`. -/
def ARENA_HEIGHT_CM : ℝ := 114.3

/-- Required clearance around fruit obstacles. -/
def MIN_CLEARANCE_CM : ℝ := 7

/-- Default clearance around no-go zones. -/
def NO_GO_CLEARANCE_CM : ℝ := 8

/-- Grid resolution of the occupancy grid. -/
def GRID_STEP_CM : ℝ := 1

/-- `math.hypot`. -/
noncomputable def mathHypot (x y : ℝ) : ℝ := Real.sqrt (x ^ 2 + y ^ 2)

/-- `_dist`. -/
noncomputable def distCm (a b : Pt) : ℝ := mathHypot (a.1 - b.1) (a.2 - b.2)

/-- The tagged union built by `_make_point_obstacle` / `_make_rect_obstacle`
(every constructed obstacle carries an explicit clearance, so the
`obs.get("clearance", default)` fallbacks never fire). -/
inductive Obstacle
  | point (x y clearance : ℝ)
  | rect (xmin xmax ymin ymax clearance : ℝ)

/-- `_make_point_obstacle`. -/
def makePointObstacle (x y clearance : ℝ) : Obstacle := Obstacle.point x y clearance

/-- `_make_rect_obstacle` (normalises the corner order). -/
noncomputable def makeRectObstacle (x1 y1 x2 y2 clearance : ℝ) : Obstacle :=
  Obstacle.rect (min x1 x2) (max x1 x2) (min y1 y2) (max y1 y2) clearance

/-- `_distance_point_to_segment`. -/
noncomputable def distancePointToSegment (px py : ℝ) (a b : Pt) : ℝ :=
  let dx := b.1 - a.1
  let dy := b.2 - a.2
  let denom := dx * dx + dy * dy
  if denom = 0 then mathHypot (px - a.1) (py - a.2)
  else
    let t := max 0 (min 1 (((px - a.1) * dx + (py - a.2) * dy) / denom))
    let projX := a.1 + t * dx
    let projY := a.2 + t * dy
    mathHypot (px - projX) (py - projY)

/-- `_point_inside_rect`. -/
noncomputable def pointInsideRect (px py xmin xmax ymin ymax : ℝ) : Bool :=
  if xmin ≤ px ∧ px ≤ xmax ∧ ymin ≤ py ∧ py ≤ ymax then true else false

/-- `_distance_point_to_rect`. -/
noncomputable def distancePointToRect (px py xmin xmax ymin ymax : ℝ) : ℝ :=
  if pointInsideRect px py xmin xmax ymin ymax then 0
  else
    let dx := if px < xmin then xmin - px else if px > xmax then px - xmax else 0
    let dy := if py < ymin then ymin - py else if py > ymax then py - ymax else 0
    mathHypot dx dy

/-- `_orientation` (with the `1e-9` collinearity epsilon). -/
noncomputable def orientation (p q r : Pt) : ℕ :=
  let val := (q.2 - p.2) * (r.1 - q.1) - (q.1 - p.1) * (r.2 - q.2)
  if |val| < 1/1000000000 then 0 else if val > 0 then 1 else 2

/-- `_on_segment` (with the `1e-9` slack). -/
noncomputable def onSegment (p q r : Pt) : Bool :=
  if min p.1 r.1 - 1/1000000000 ≤ q.1 ∧ q.1 ≤ max p.1 r.1 + 1/1000000000 ∧
     min p.2 r.2 - 1/1000000000 ≤ q.2 ∧ q.2 ≤ max p.2 r.2 + 1/1000000000
  then true else false

/-- `_segments_intersect`. -/
noncomputable def segmentsIntersect (p1 p2 q1 q2 : Pt) : Bool :=
  let o1 := orientation p1 p2 q1
  let o2 := orientation p1 p2 q2
  let o3 := orientation q1 q2 p1
  let o4 := orientation q1 q2 p2
  if o1 ≠ o2 ∧ o3 ≠ o4 then true
  else if o1 = 0 ∧ onSegment p1 q1 p2 then true
  else if o2 = 0 ∧ onSegment p1 q2 p2 then true
  else if o3 = 0 ∧ onSegment q1 p1 q2 then true
  else if o4 = 0 ∧ onSegment q1 p2 q2 then true
  else false

/-- `_distance_segment_to_segment`. -/
noncomputable def distanceSegmentToSegment (a1 a2 b1 b2 : Pt) : ℝ :=
  if segmentsIntersect a1 a2 b1 b2 then 0
  else
    min (min (distancePointToSegment a1.1 a1.2 b1 b2)
             (distancePointToSegment a2.1 a2.2 b1 b2))
        (min (distancePointToSegment b1.1 b1.2 a1 a2)
             (distancePointToSegment b2.1 b2.2 a1 a2))

/-- `_segment_intersects_rect`. -/
noncomputable def segmentIntersectsRect (a b : Pt) (xmin xmax ymin ymax : ℝ) : Bool :=
  if pointInsideRect a.1 a.2 xmin xmax ymin ymax then true
  else if pointInsideRect b.1 b.2 xmin xmax ymin ymax then true
  else
    let c0 : Pt := (xmin, ymin)
    let c1 : Pt := (xmax, ymin)
    let c2 : Pt := (xmax, ymax)
    let c3 : Pt := (xmin, ymax)
    if segmentsIntersect a b c0 c1 then true
    else if segmentsIntersect a b c1 c2 then true
    else if segmentsIntersect a b c2 c3 then true
    else if segmentsIntersect a b c3 c0 then true
    else false

/-- `_distance_segment_to_rect`. -/
noncomputable def distanceSegmentToRect (a b : Pt) (xmin xmax ymin ymax : ℝ) : ℝ :=
  if segmentIntersectsRect a b xmin xmax ymin ymax then 0
  else
    let c0 : Pt := (xmin, ymin)
    let c1 : Pt := (xmax, ymin)
    let c2 : Pt := (xmax, ymax)
    let c3 : Pt := (xmin, ymax)
    let d0 := min (distancePointToRect a.1 a.2 xmin xmax ymin ymax)
                  (distancePointToRect b.1 b.2 xmin xmax ymin ymax)
    let d1 := min d0 (distanceSegmentToSegment a b c0 c1)
    let d2 := min d1 (distanceSegmentToSegment a b c1 c2)
    let d3 := min d2 (distanceSegmentToSegment a b c2 c3)
    min d3 (distanceSegmentToSegment a b c3 c0)

/-- Clearance radius carried by an obstacle. -/
def Obstacle.clearance : Obstacle → ℝ
  | Obstacle.point _ _ c => c
  | Obstacle.rect _ _ _ _ c => c

/-- Per-obstacle minimum distance to a segment, as computed inside
`_segment_is_clear` / `_segment_min_clearance`. -/
noncomputable def obstacleDistToSegment (a b : Pt) : Obstacle → ℝ
  | Obstacle.point ox oy _ => distancePointToSegment ox oy a b
  | Obstacle.rect xmin xmax ymin ymax _ => distanceSegmentToRect a b xmin xmax ymin ymax

/-- `_segment_is_clear` (the source loop with early `return False` is
`List.all`). -/
noncomputable def segmentIsClear (a b : Pt) (obstacles : List Obstacle) : Bool :=
  obstacles.all fun obs =>
    if obstacleDistToSegment a b obs < obs.clearance then false else true

/-- `_polyline_length`. -/
noncomputable def polylineLength : List Pt → ℝ
  | [] => 0
  | [_] => 0
  | a :: b :: rest => distCm a b + polylineLength (b :: rest)

/-- Inner loop of `_smooth_polyline`: from the end of the polyline, step `j`
down while `j > i + 1` and the segment `path[i] → path[j]` is not clear. -/
noncomputable def innerJ (path : List Pt) (obstacles : List Obstacle) (i : ℕ) : ℕ → ℕ
  | 0 => 0
  | j + 1 =>
    if i + 1 < j + 1 ∧
        segmentIsClear (path.getD i origin) (path.getD (j + 1) origin) obstacles = false
    then innerJ path obstacles i j
    else j + 1

/-- Outer loop of `_smooth_polyline`: the waypoints appended after
`path[0]`.  The source `while` advances `i` to `j ≥ i + 1` each iteration,
so `path.length` iterations always suffice; the fuel argument makes the
recursion structural and is never exhausted when started at
`path.length`. -/
noncomputable def smoothRest (path : List Pt) (obstacles : List Obstacle) : ℕ → ℕ → List Pt
  | 0, _ => []
  | fuel + 1, i =>
    if i < path.length - 1 then
      path.getD (innerJ path obstacles i (path.length - 1)) origin ::
        smoothRest path obstacles fuel (innerJ path obstacles i (path.length - 1))
    else []

/-- `_smooth_polyline`. -/
noncomputable def smoothPolyline (path : List Pt) (obstacles : List Obstacle) : List Pt :=
  if path.length ≤ 2 then path
  else path.headD origin :: smoothRest path obstacles path.length 0

lemma innerJ_ge (path : List Pt) (obstacles : List Obstacle) (i : ℕ) :
    ∀ j, i + 1 ≤ j → i + 1 ≤ innerJ path obstacles i j ∧ innerJ path obstacles i j ≤ j := by
  intro j
  induction j with
  | zero => intro h; omega
  | succ n ih =>
    intro h
    rw [innerJ]
    split
    · rename_i hc
      have := ih (by omega)
      omega
    · omega

lemma innerJ_clear_or_adjacent (path : List Pt) (obstacles : List Obstacle) (i : ℕ) :
    ∀ j, i + 1 ≤ j →
      innerJ path obstacles i j = i + 1 ∨
      segmentIsClear (path.getD i origin) (path.getD (innerJ path obstacles i j) origin)
        obstacles = true := by
  intro j
  induction j with
  | zero => intro h; omega
  | succ n ih =>
    intro h
    rw [innerJ]
    split
    · rename_i hc
      exact ih (by omega)
    · rename_i hc
      by_cases hA : i + 1 < n + 1
      · right
        have hB : ¬ segmentIsClear (path.getD i origin) (path.getD (n + 1) origin)
            obstacles = false := fun hf => hc ⟨hA, hf⟩
        simpa using hB
      · left
        omega

lemma smoothRest_length (path : List Pt) (obstacles : List Obstacle) :
    ∀ fuel i, (smoothRest path obstacles fuel i).length ≤ path.length - 1 - i := by
  intro fuel
  induction fuel with
  | zero => intro i; simp [smoothRest]
  | succ n ih =>
    intro i
    rw [smoothRest]
    split
    · rename_i hlt
      have hj := innerJ_ge path obstacles i (path.length - 1) (by omega)
      have hr := ih (innerJ path obstacles i (path.length - 1))
      simp only [List.length_cons]
      omega
    · simp

lemma smoothRest_chain (path : List Pt) (obstacles : List Obstacle) :
    ∀ fuel i,
      List.Chain' (fun u v =>
        segmentIsClear u v obstacles = true ∨
        ∃ k, k + 1 < path.length ∧ path.getD k origin = u ∧ path.getD (k + 1) origin = v)
        (path.getD i origin :: smoothRest path obstacles fuel i) := by
  intro fuel
  induction fuel with
  | zero => intro i; simp [smoothRest]
  | succ n ih =>
    intro i
    rw [smoothRest]
    split
    · rename_i hlt
      have hj := innerJ_ge path obstacles i (path.length - 1) (by omega)
      have hco := innerJ_clear_or_adjacent path obstacles i (path.length - 1) (by omega)
      rw [List.chain'_cons]
      refine ⟨?_, ih _⟩
      rcases hco with heq | hcl
      · right
        refine ⟨i, by omega, rfl, ?_⟩
        rw [heq]
      · left
        exact hcl
    · simp

/-- Obstacle set for the C4 counterexample: one point obstacle sitting on
the polyline's first waypoint. -/
def obsAtStart : List Obstacle := [Obstacle.point 0 0 MIN_CLEARANCE_CM]

/-- Dense three-waypoint input polyline for the C4 counterexample. -/
def pathThree : List Pt := [(0, 0), (3, 0), (6, 0)]

lemma segClear_00_60 : segmentIsClear (0, 0) (6, 0) obsAtStart = false := by
  simp only [segmentIsClear, obsAtStart, List.all_cons, List.all_nil, obstacleDistToSegment,
    Obstacle.clearance, distancePointToSegment, mathHypot, MIN_CLEARANCE_CM]
  norm_num [max_def, min_def]

lemma segClear_00_30 : segmentIsClear (0, 0) (3, 0) obsAtStart = false := by
  simp only [segmentIsClear, obsAtStart, List.all_cons, List.all_nil, obstacleDistToSegment,
    Obstacle.clearance, distancePointToSegment, mathHypot, MIN_CLEARANCE_CM]
  norm_num [max_def, min_def]

lemma smoothPolyline_pathThree_eval :
    smoothPolyline pathThree obsAtStart = pathThree := by
  have hJ0 : innerJ pathThree obsAtStart 0 2 = 1 := by
    rw [show (2 : ℕ) = 1 + 1 from rfl, innerJ]
    rw [if_pos ⟨by omega, by
      show segmentIsClear (pathThree.getD 0 origin) (pathThree.getD 2 origin) obsAtStart = false
      have h0 : pathThree.getD 0 origin = (0, 0) := rfl
      have h2 : pathThree.getD 2 origin = (6, 0) := rfl
      rw [h0, h2]
      exact segClear_00_60⟩]
    rw [innerJ]
    rw [if_neg (by omega)]
  have hJ1 : innerJ pathThree obsAtStart 1 2 = 2 := by
    rw [show (2 : ℕ) = 1 + 1 from rfl, innerJ]
    rw [if_neg (by omega)]
  have hl : pathThree.length - 1 = 2 := rfl
  have hR2 : smoothRest pathThree obsAtStart 1 2 = [] := by
    rw [show (1 : ℕ) = 0 + 1 from rfl, smoothRest]
    rw [if_neg (by norm_num [pathThree])]
  have hR1 : smoothRest pathThree obsAtStart 2 1 = [(6, 0)] := by
    rw [show (2 : ℕ) = 1 + 1 from rfl, smoothRest]
    rw [if_pos (by norm_num [pathThree])]
    rw [hl, hJ1, hR2]
    rfl
  have hR0 : smoothRest pathThree obsAtStart 3 0 = [(3, 0), (6, 0)] := by
    rw [show (3 : ℕ) = 2 + 1 from rfl, smoothRest]
    rw [if_pos (by norm_num [pathThree])]
    rw [hl, hJ0, hR1]
    rfl
  rw [smoothPolyline, if_neg (by norm_num [pathThree])]
  rw [show pathThree.length = 3 from rfl, hR0]
  rfl

/-- C4 (counterexample): on the dense polyline `[(0,0),(3,0),(6,0)]` with a
point obstacle of clearance 7 at `(0,0)`, `_smooth_polyline` returns the
polyline unchanged, and its first segment violates the required clearance —
the compressor's fallback appends the single-step segment `path[i] →
path[i+1]` without any clearance check, so the output is not always
clearance-safe. -/
theorem smooth_polyline_clearance_violation :
    smoothPolyline pathThree obsAtStart = pathThree ∧
    ¬ List.Chain' (fun u v => segmentIsClear u v obsAtStart = true)
      (smoothPolyline pathThree obsAtStart) := by
  refine ⟨smoothPolyline_pathThree_eval, ?_⟩
  rw [smoothPolyline_pathThree_eval]
  intro hch
  rw [pathThree, List.chain'_cons] at hch
  have := hch.1
  rw [segClear_00_30] at this
  exact Bool.false_ne_true this

/-- C4 (amended): the Path Compressor never lengthens the polyline
(waypoint count of the output is at most that of the input), and every
output segment either keeps the required clearance from every obstacle or
is one of the unchecked fallback segments joining two consecutive input
waypoints (taken when no clear shortcut exists from the current anchor). -/
theorem smooth_polyline_length_le_and_fallback (path : List Pt) (obstacles : List Obstacle) :
    (smoothPolyline path obstacles).length ≤ path.length ∧
    List.Chain' (fun u v =>
      segmentIsClear u v obstacles = true ∨
      ∃ k, k + 1 < path.length ∧ path.getD k origin = u ∧ path.getD (k + 1) origin = v)
      (smoothPolyline path obstacles) := by
  constructor
  · rw [smoothPolyline]
    split
    · exact le_refl _
    · rename_i hlen
      have := smoothRest_length path obstacles path.length 0
      simp only [List.length_cons]
      omega
  · rw [smoothPolyline]
    split
    · rename_i hlen
      match path, hlen with
      | [], _ => simp
      | [a], _ => simp
      | [a, b], _ =>
        rw [List.chain'_cons]
        refine ⟨Or.inr ⟨0, by norm_num, rfl, rfl⟩, by simp⟩
    · rename_i hlen
      have hch := smoothRest_chain path obstacles path.length 0
      have hhead : path.headD origin = path.getD 0 origin := by
        cases path
        · rfl
        · rfl
      rw [hhead]
      exact hch

/-- Python `%` on reals with a positive modulus: `a - b * ⌊a / b⌋`. -/
noncomputable def realMod (a b : ℝ) : ℝ := a - b * ⌊a / b⌋

/-- `math.atan2 y x`, via `Complex.arg` (which agrees with `atan2` on all
real inputs, with `arg 0 = 0`; the float distinction between `+0.0` and
`-0.0` does not exist in the real model). -/
noncomputable def pyAtan2 (y x : ℝ) : ℝ := Complex.arg ⟨x, y⟩

/-- `math.degrees`. -/
noncomputable def radToDeg (x : ℝ) : ℝ := x * (180 / Real.pi)

/-- `math.radians`. -/
noncomputable def degToRad (x : ℝ) : ℝ := x * (Real.pi / 180)

/-- The Segment Converter loop of `build_auto_path` (lines 756-776),
processing the checkpoints pairwise with the running absolute heading and
the 1-based segment counter `i`: absolute heading `atan2(dx, -dy)` in
degrees mod 360, relative turn wrapped into `[-180, 180)` by
`(Δ + 540) % 360 - 180`, Euclidean segment distance; the segment whose index
equals `reverse_checkpoint_idx` is overridden to `(0, -distance)`.  The
running heading becomes the absolute heading in either case. -/
noncomputable def segsGo (ridx : Option ℕ) : List Pt → Pt → ℝ → ℕ → List (ℝ × ℝ)
  | [], _, _, _ => []
  | p :: rest, prev, heading, i =>
    let dx := p.1 - prev.1
    let dy := p.2 - prev.2
    let absHeading := realMod (radToDeg (pyAtan2 dx (-dy))) 360
    let relTurn := realMod (absHeading - heading + 540) 360 - 180
    let segDist := mathHypot dx dy
    (if ridx = some i then ((0 : ℝ), -segDist) else (relTurn, segDist)) ::
      segsGo ridx rest p absHeading (i + 1)

/-- The Segment Converter of `build_auto_path`: a checkpoint chain becomes
`(relative turn in degrees, signed distance in cm)` commands, starting from
heading 0 (facing up). -/
noncomputable def segsOfCheckpoints (cps : List Pt) (ridx : Option ℕ) : List (ℝ × ℝ) :=
  match cps with
  | [] => []
  | c0 :: rest => segsGo ridx rest c0 0 1

/-- Modelled from the spec (§4.7, §8): kinematic replay of
`(turn, distance)` commands from a start pose.  The heading accumulates the
relative turns (0° = facing up, i.e. negative Y, positive X to the right),
each command moves `distance` along the post-turn heading, and a negative
distance moves backward along the unchanged heading.  This is the
comparison definition for the round-trip claim; the repository has no
replay code of its own. -/
noncomputable def replayGo : Pt → ℝ → List (ℝ × ℝ) → List Pt
  | p, _, [] => [p]
  | p, heading, td :: rest =>
    let h2 := heading + td.1
    p :: replayGo (p.1 + td.2 * Real.sin (degToRad h2), p.2 - td.2 * Real.cos (degToRad h2))
      h2 rest

/-- Kinematic replay from a start point with initial heading 0. -/
noncomputable def specReplay (start : Pt) (cmds : List (ℝ × ℝ)) : List Pt :=
  replayGo start 0 cmds

lemma realMod_nonneg_lt (a b : ℝ) (hb : 0 < b) : 0 ≤ realMod a b ∧ realMod a b < b := by
  have h1 : (⌊a / b⌋ : ℝ) ≤ a / b := Int.floor_le _
  have h2 : a / b < ⌊a / b⌋ + 1 := Int.lt_floor_add_one _
  have e : b * (a / b) = a := by field_simp
  constructor
  · have h3 := mul_le_mul_of_nonneg_left h1 hb.le
    rw [e] at h3
    simp only [realMod, sub_nonneg]
    exact h3
  · have h3 := mul_lt_mul_of_pos_left h2 hb
    rw [e, mul_add, mul_one] at h3
    simp only [realMod]
    linarith

/-- C5 (amended): every turn emitted by the Segment Converter lies in the
half-open interval `[-180, 180)` — the wrap `(Δ + 540) % 360 - 180` lands in
`[-180, 180)`, and the reverse override emits turn 0. -/
theorem segs_turn_in_Ico (cps : List Pt) (ridx : Option ℕ) :
    ∀ td ∈ segsOfCheckpoints cps ridx, -180 ≤ td.1 ∧ td.1 < 180 := by
  have key : ∀ (rest : List Pt) (prev : Pt) (heading : ℝ) (i : ℕ),
      ∀ td ∈ segsGo ridx rest prev heading i, -180 ≤ td.1 ∧ td.1 < 180 := by
    intro rest
    induction rest with
    | nil =>
      intro prev heading i td h
      rw [segsGo] at h
      simp at h
    | cons p rest ih =>
      intro prev heading i td h
      simp only [segsGo, List.mem_cons] at h
      rcases h with h1 | h2
      · by_cases hr : ridx = some i
        · rw [if_pos hr] at h1
          rw [h1]
          norm_num
        · rw [if_neg hr] at h1
          rw [h1]
          have hm := realMod_nonneg_lt
            (realMod (radToDeg (pyAtan2 (p.1 - prev.1) (-(p.2 - prev.2)))) 360 -
              heading + 540) 360 (by norm_num)
          constructor
          · simp only []
            linarith [hm.1]
          · simp only []
            linarith [hm.2]
      · exact ih p _ (i + 1) td h2
  match cps with
  | [] => intro td h; rw [segsOfCheckpoints] at h; simp at h
  | c0 :: rest => exact key rest c0 0 1

lemma arg_mk_real_neg (x : ℝ) (hx : x < 0) : Complex.arg ⟨x, 0⟩ = Real.pi := by
  have h : (⟨x, 0⟩ : ℂ) = ((x : ℝ) : ℂ) := by
    apply Complex.ext
    · simp
    · simp
  rw [h]
  exact Complex.arg_ofReal_of_neg hx

lemma arg_mk_real_nonneg (x : ℝ) (hx : 0 ≤ x) : Complex.arg ⟨x, 0⟩ = 0 := by
  have h : (⟨x, 0⟩ : ℂ) = ((x : ℝ) : ℂ) := by
    apply Complex.ext
    · simp
    · simp
  rw [h]
  exact Complex.arg_ofReal_of_nonneg hx

lemma radToDeg_pi : radToDeg Real.pi = 180 := by
  rw [radToDeg]
  field_simp

lemma segsGo_down :
    segsGo none [((0 : ℝ), (10 : ℝ))] ((0 : ℝ), (0 : ℝ)) 0 1 = [((-180 : ℝ), (10 : ℝ))] := by
  rw [segsGo, segsGo]
  simp only []
  rw [if_neg (by simp)]
  have hatan : pyAtan2 (((0:ℝ), (10:ℝ)).1 - ((0:ℝ), (0:ℝ)).1)
      (-(((0:ℝ), (10:ℝ)).2 - ((0:ℝ), (0:ℝ)).2)) = Real.pi := by
    rw [pyAtan2]
    rw [show (⟨-(((0:ℝ), (10:ℝ)).2 - ((0:ℝ), (0:ℝ)).2),
        ((0:ℝ), (10:ℝ)).1 - ((0:ℝ), (0:ℝ)).1⟩ : ℂ) = (⟨-10, 0⟩ : ℂ) by
      apply Complex.ext
      · norm_num
      · norm_num]
    exact arg_mk_real_neg (-10) (by norm_num)
  rw [hatan, radToDeg_pi]
  have h1 : realMod 180 360 = 180 := by
    rw [realMod]
    norm_num
  rw [h1]
  have h2 : realMod (180 - 0 + 540) 360 = 0 := by
    rw [realMod]
    norm_num
  rw [h2]
  have h3 : mathHypot (((0:ℝ), (10:ℝ)).1 - ((0:ℝ), (0:ℝ)).1)
      (((0:ℝ), (10:ℝ)).2 - ((0:ℝ), (0:ℝ)).2) = 10 := by
    rw [mathHypot]
    rw [show (((0:ℝ), (10:ℝ)).1 - ((0:ℝ), (0:ℝ)).1) ^ 2 +
        (((0:ℝ), (10:ℝ)).2 - ((0:ℝ), (0:ℝ)).2) ^ 2 = 10 ^ 2 by norm_num]
    exact Real.sqrt_sq (by norm_num)
  rw [h3]
  norm_num

lemma segs_down_eval :
    segsOfCheckpoints [((0 : ℝ), (0 : ℝ)), ((0 : ℝ), (10 : ℝ))] none =
      [((-180 : ℝ), (10 : ℝ))] := by
  rw [segsOfCheckpoints]
  exact segsGo_down

/-- C5 (counterexample): a checkpoint chain heading straight down from the
start (initial heading 0 = up) makes the converter emit a relative turn of
exactly `-180`, which lies outside the claimed interval `(-180, 180]`. -/
theorem segs_turn_eq_neg180 :
    segsOfCheckpoints [((0 : ℝ), (0 : ℝ)), ((0 : ℝ), (10 : ℝ))] none =
      [((-180 : ℝ), (10 : ℝ))] ∧
    ¬ ((-180 : ℝ) < -180 ∧ (-180 : ℝ) ≤ 180) := by
  refine ⟨segs_down_eval, ?_⟩
  intro h
  exact lt_irrefl _ h.1

/-- C5 (witness): the emitted command `(-180, 10)` of the straight-down
chain indeed satisfies the amended bounds `-180 ≤ turn < 180`. -/
theorem segs_turn_in_Ico_witness :
    -180 ≤ ((-180 : ℝ), (10 : ℝ)).1 ∧ ((-180 : ℝ), (10 : ℝ)).1 < 180 :=
  segs_turn_in_Ico [((0 : ℝ), (0 : ℝ)), ((0 : ℝ), (10 : ℝ))] none
    ((-180 : ℝ), (10 : ℝ)) (by rw [segs_down_eval]; exact List.mem_singleton.mpr rfl)

lemma complexAbs_mk (x y : ℝ) : Complex.abs ⟨x, y⟩ = Real.sqrt (x ^ 2 + y ^ 2) := by
  rw [Complex.abs_apply, Complex.normSq_mk]
  ring_nf

lemma mk_ne_zero_of_not_both (x y : ℝ) (h : ¬ (x = 0 ∧ y = 0)) : (⟨x, y⟩ : ℂ) ≠ 0 := by
  intro hc
  apply h
  constructor
  · have := congrArg Complex.re hc
    simpa using this
  · have := congrArg Complex.im hc
    simpa using this

lemma degToRad_heading (w : ℝ) (k : ℤ) :
    degToRad (realMod (radToDeg w) 360 + (k : ℝ) * 360) =
      w + ((k - ⌊radToDeg w / 360⌋ : ℤ) : ℝ) * (2 * Real.pi) := by
  rw [degToRad, realMod, radToDeg]
  have hpi := Real.pi_ne_zero
  push_cast
  field_simp
  ring

lemma sin_cos_degToRad_heading (dx dy : ℝ) (k : ℤ) :
    mathHypot dx dy *
      Real.sin (degToRad (realMod (radToDeg (pyAtan2 dx (-dy))) 360 + (k : ℝ) * 360)) = dx ∧
    mathHypot dx dy *
      Real.cos (degToRad (realMod (radToDeg (pyAtan2 dx (-dy))) 360 + (k : ℝ) * 360)) = -dy := by
  rw [degToRad_heading]
  rw [Real.sin_add_int_mul_two_pi, Real.cos_add_int_mul_two_pi]
  by_cases h0 : dx = 0 ∧ dy = 0
  · obtain ⟨h1, h2⟩ := h0
    rw [h1, h2]
    rw [show mathHypot 0 0 = 0 by rw [mathHypot]; norm_num]
    norm_num
  · have hz : (⟨-dy, dx⟩ : ℂ) ≠ 0 := mk_ne_zero_of_not_both _ _ (by
      intro hc
      exact h0 ⟨hc.2, by linarith [neg_eq_zero.mp hc.1]⟩)
    have habs : Complex.abs ⟨-dy, dx⟩ = mathHypot dx dy := by
      rw [complexAbs_mk, mathHypot]
      ring_nf
    have hpos : 0 < mathHypot dx dy := by
      rw [← habs]
      exact Complex.abs.pos hz
    constructor
    · rw [pyAtan2, Complex.sin_arg]
      rw [show (⟨-dy, dx⟩ : ℂ).im = dx from rfl, habs]
      field_simp
    · rw [pyAtan2, Complex.cos_arg hz]
      rw [show (⟨-dy, dx⟩ : ℂ).re = -dy from rfl, habs]
      field_simp
      ring

lemma replay_segsGo (rest : List Pt) :
    ∀ (prev : Pt) (heading θ : ℝ) (i : ℕ) (k : ℤ),
      θ = heading + (k : ℝ) * 360 →
      replayGo prev θ (segsGo none rest prev heading i) = prev :: rest := by
  induction rest with
  | nil =>
    intro prev heading θ i k hk
    rw [segsGo, replayGo]
  | cons p rest ih =>
    intro prev heading θ i k hk
    rw [segsGo]
    rw [if_neg (by simp)]
    rw [replayGo]
    set dx := p.1 - prev.1 with hdx
    set dy := p.2 - prev.2 with hdy
    set A := realMod (radToDeg (pyAtan2 dx (-dy))) 360 with hA
    have hθ' : θ + (realMod (A - heading + 540) 360 - 180) =
        A + ((k + 1 - ⌊(A - heading + 540) / 360⌋ : ℤ) : ℝ) * 360 := by
      rw [hk, realMod]
      push_cast
      ring
    have hsc := sin_cos_degToRad_heading dx dy (k + 1 - ⌊(A - heading + 540) / 360⌋)
    rw [← hA] at hsc
    have hx : prev.1 + mathHypot dx dy *
        Real.sin (degToRad (θ + (realMod (A - heading + 540) 360 - 180))) = p.1 := by
      rw [hθ', hsc.1, hdx]
      ring
    have hy : prev.2 - mathHypot dx dy *
        Real.cos (degToRad (θ + (realMod (A - heading + 540) 360 - 180))) = p.2 := by
      rw [hθ', hsc.2, hdy]
      ring
    rw [show (prev.1 + mathHypot dx dy *
          Real.sin (degToRad (θ + (realMod (A - heading + 540) 360 - 180))),
        prev.2 - mathHypot dx dy *
          Real.cos (degToRad (θ + (realMod (A - heading + 540) 360 - 180)))) = p from by
      rw [Prod.ext_iff]
      exact ⟨hx, hy⟩]
    rw [ih p A (θ + (realMod (A - heading + 540) 360 - 180)) (i + 1)
      (k + 1 - ⌊(A - heading + 540) / 360⌋) hθ']

/-- C6 (amended): for every checkpoint chain converted WITHOUT a
reverse-maneuver mark (`reverse_checkpoint_idx = None`), replaying the
Segment Converter's `(turn, distance)` commands from the same start pose
(initial heading 0 = facing up) reconstructs the original waypoint list
exactly (in real arithmetic; the float implementation agrees to
floating-point tolerance). -/
theorem replay_roundtrip_no_reverse (c0 : Pt) (rest : List Pt) :
    specReplay c0 (segsOfCheckpoints (c0 :: rest) none) = c0 :: rest := by
  rw [specReplay, segsOfCheckpoints]
  exact replay_segsGo rest c0 0 0 1 0 (by push_cast; ring)

/-- Checkpoint chain for the C6 counterexample: down 10 cm, then marked
reverse back up to the start (as `build_auto_path`'s reverse maneuver
produces). -/
def cpsReverse : List Pt := [(0, 0), (0, 10), (0, 0)]

lemma segs_reverse_eval :
    segsOfCheckpoints cpsReverse (some 1) =
      [((0 : ℝ), (-10 : ℝ)), ((-180 : ℝ), (10 : ℝ))] := by
  rw [show cpsReverse = [((0:ℝ), (0:ℝ)), ((0:ℝ), (10:ℝ)), ((0:ℝ), (0:ℝ))] from rfl]
  rw [segsOfCheckpoints]
  rw [segsGo]
  dsimp only
  rw [if_pos rfl]
  have hatan1 : pyAtan2 (((0:ℝ), (10:ℝ)).1 - ((0:ℝ), (0:ℝ)).1)
      (-(((0:ℝ), (10:ℝ)).2 - ((0:ℝ), (0:ℝ)).2)) = Real.pi := by
    rw [pyAtan2]
    rw [show (⟨-(((0:ℝ), (10:ℝ)).2 - ((0:ℝ), (0:ℝ)).2),
        ((0:ℝ), (10:ℝ)).1 - ((0:ℝ), (0:ℝ)).1⟩ : ℂ) = (⟨-10, 0⟩ : ℂ) by
      apply Complex.ext
      · norm_num
      · norm_num]
    exact arg_mk_real_neg (-10) (by norm_num)
  rw [hatan1, radToDeg_pi]
  have h1 : realMod 180 360 = 180 := by
    rw [realMod]
    norm_num
  rw [h1]
  rw [segsGo]
  dsimp only
  rw [if_neg (by simp)]
  rw [segsGo]
  have hatan2 : pyAtan2 (((0:ℝ), (0:ℝ)).1 - ((0:ℝ), (10:ℝ)).1)
      (-(((0:ℝ), (0:ℝ)).2 - ((0:ℝ), (10:ℝ)).2)) = 0 := by
    rw [pyAtan2]
    rw [show (⟨-(((0:ℝ), (0:ℝ)).2 - ((0:ℝ), (10:ℝ)).2),
        ((0:ℝ), (0:ℝ)).1 - ((0:ℝ), (10:ℝ)).1⟩ : ℂ) = (⟨10, 0⟩ : ℂ) by
      apply Complex.ext
      · norm_num
      · norm_num]
    exact arg_mk_real_nonneg 10 (by norm_num)
  rw [hatan2]
  have h2 : radToDeg 0 = 0 := by
    rw [radToDeg]
    ring
  rw [h2]
  have h3 : realMod 0 360 = 0 := by
    rw [realMod]
    norm_num
  rw [h3]
  have h4 : realMod (0 - 180 + 540) 360 = 0 := by
    rw [realMod]
    norm_num
  rw [h4]
  have h5 : mathHypot (((0:ℝ), (10:ℝ)).1 - ((0:ℝ), (0:ℝ)).1)
      (((0:ℝ), (10:ℝ)).2 - ((0:ℝ), (0:ℝ)).2) = 10 := by
    rw [mathHypot]
    rw [show (((0:ℝ), (10:ℝ)).1 - ((0:ℝ), (0:ℝ)).1) ^ 2 +
        (((0:ℝ), (10:ℝ)).2 - ((0:ℝ), (0:ℝ)).2) ^ 2 = 10 ^ 2 by norm_num]
    exact Real.sqrt_sq (by norm_num)
  rw [h5]
  have h6 : mathHypot (((0:ℝ), (0:ℝ)).1 - ((0:ℝ), (10:ℝ)).1)
      (((0:ℝ), (0:ℝ)).2 - ((0:ℝ), (10:ℝ)).2) = 10 := by
    rw [mathHypot]
    rw [show (((0:ℝ), (0:ℝ)).1 - ((0:ℝ), (10:ℝ)).1) ^ 2 +
        (((0:ℝ), (0:ℝ)).2 - ((0:ℝ), (10:ℝ)).2) ^ 2 = 10 ^ 2 by norm_num]
    exact Real.sqrt_sq (by norm_num)
  rw [h6]
  norm_num

lemma replay_reverse_eval :
    specReplay ((0 : ℝ), (0 : ℝ)) [((0 : ℝ), (-10 : ℝ)), ((-180 : ℝ), (10 : ℝ))] =
      [((0 : ℝ), (0 : ℝ)), ((0 : ℝ), (10 : ℝ)), ((0 : ℝ), (20 : ℝ))] := by
  rw [specReplay, replayGo]
  dsimp only
  have hr1 : degToRad ((0 : ℝ) + ((0:ℝ), (-10:ℝ)).1) = 0 := by
    rw [degToRad]
    norm_num
  rw [hr1, Real.sin_zero, Real.cos_zero]
  rw [replayGo]
  dsimp only
  have hr2 : degToRad ((0 : ℝ) + ((0:ℝ), (-10:ℝ)).1 + ((-180:ℝ), (10:ℝ)).1) = -Real.pi := by
    rw [degToRad]
    have hpi := Real.pi_ne_zero
    field_simp
    ring
  rw [hr2, Real.sin_neg, Real.cos_neg, Real.sin_pi, Real.cos_pi]
  rw [replayGo]
  norm_num

/-- C6 (counterexample): with the reverse-maneuver mark on segment 1
(exactly what `build_auto_path` emits for its reverse maneuver), replaying
the converter's output from the same start pose does NOT reconstruct the
checkpoints: after the `(0, -10)` reverse command the replayed facing is
still 0°, but the converter tracked the direction of travel (180°), so the
next command is off by 180° and the replayed endpoint is `(0, 20)` instead
of `(0, 0)`. -/
theorem replay_reverse_mark_mismatch :
    segsOfCheckpoints cpsReverse (some 1) =
      [((0 : ℝ), (-10 : ℝ)), ((-180 : ℝ), (10 : ℝ))] ∧
    specReplay ((0 : ℝ), (0 : ℝ)) (segsOfCheckpoints cpsReverse (some 1)) ≠ cpsReverse := by
  refine ⟨segs_reverse_eval, ?_⟩
  rw [segs_reverse_eval, replay_reverse_eval]
  intro h
  rw [show cpsReverse = [((0:ℝ), (0:ℝ)), ((0:ℝ), (10:ℝ)), ((0:ℝ), (0:ℝ))] from rfl] at h
  norm_num at h

/-- One cell's blocked test in `_build_occupancy` (the inner obstacle loop
with early `break` is `List.any`; every constructed obstacle carries a
clearance, so the `.get` default never fires). -/
noncomputable def blockedCell (obstacles : List Obstacle) (step : ℝ) (gx gy : ℕ) : Bool :=
  obstacles.any fun obs =>
    match obs with
    | Obstacle.point ox oy clear =>
      if ((gx : ℝ) * step - ox) * ((gx : ℝ) * step - ox) +
          ((gy : ℝ) * step - oy) * ((gy : ℝ) * step - oy) ≤ clear * clear
      then true else false
    | Obstacle.rect xmin xmax ymin ymax clear =>
      if distancePointToRect ((gx : ℝ) * step) ((gy : ℝ) * step) xmin xmax ymin ymax ≤ clear
      then true else false

/-- `_build_occupancy`: dense occupancy grid (True = blocked), grid width,
grid height, and the (unchanged) step. -/
noncomputable def buildOccupancy (obstacles : List Obstacle) (step : ℝ) :
    List (List Bool) × ℕ × ℕ × ℝ :=
  let gw := (⌈ARENA_WIDTH_CM / step⌉ + 1).toNat
  let gh := (⌈ARENA_HEIGHT_CM / step⌉ + 1).toNat
  ((List.range gh).map fun gy => (List.range gw).map fun gx => blockedCell obstacles step gx gy,
   gw, gh, step)

/-- `_in_bounds`. -/
def inBounds (g : ℤ × ℤ) (gw gh : ℕ) : Bool :=
  if 0 ≤ g.1 ∧ g.1 < (gw : ℤ) ∧ 0 ≤ g.2 ∧ g.2 < (gh : ℤ) then true else false

/-- `_neighbors8`, in generator order (`dy` outer, `dx` inner, skipping
`(0, 0)`). -/
def neighbors8 (g : ℤ × ℤ) : List (ℤ × ℤ) :=
  [(g.1 - 1, g.2 - 1), (g.1, g.2 - 1), (g.1 + 1, g.2 - 1),
   (g.1 - 1, g.2), (g.1 + 1, g.2),
   (g.1 - 1, g.2 + 1), (g.1, g.2 + 1), (g.1 + 1, g.2 + 1)]

/-- `_heuristic`. -/
noncomputable def heuristic (a b : Pt) : ℝ := mathHypot (a.1 - b.1) (a.2 - b.2)

/-- `pt_to_grid` inside `_astar` (Python `round` is round-half-to-even). -/
noncomputable def ptToGrid (p : Pt) (step : ℝ) : ℤ × ℤ :=
  (pyRound (p.1 / step), pyRound (p.2 / step))

/-- `grid_to_pt` inside `_astar`. -/
noncomputable def gridToPt (g : ℤ × ℤ) (step : ℝ) : Pt :=
  ((g.1 : ℝ) * step, (g.2 : ℝ) * step)

/-- Occupancy lookup `occ[gy][gx]` (all call sites have established
in-bounds indices, where Python indexing cannot raise or wrap). -/
def occLookup (occ : List (List Bool)) (g : ℤ × ℤ) : Bool :=
  (occ.getD g.2.toNat []).getD g.1.toNat false

/-- Python tuple `<` on heap items `(f, (gx, gy))`: lexicographic with
short-circuit on equality. -/
noncomputable def itemLt (a b : ℝ × (ℤ × ℤ)) : Bool :=
  if a.1 < b.1 then true
  else if a.1 = b.1 then
    (if a.2.1 < b.2.1 then true
     else if a.2.1 = b.2.1 then (if a.2.2 < b.2.2 then true else false)
     else false)
  else false

/-- CPython `heapq._siftdown(heap, startpos, pos)`: move the parents of
`pos` down while `newitem` is smaller, then place `newitem`.  Each step goes
to `(pos - 1) / 2 < pos`, so fuel `pos + 1` always suffices and the fuel-0
fallback is unreachable from the call sites below. -/
noncomputable def siftdownAux (newitem : ℝ × (ℤ × ℤ)) (startpos : ℕ) :
    ℕ → List (ℝ × (ℤ × ℤ)) → ℕ → List (ℝ × (ℤ × ℤ))
  | 0, heap, pos => heap.set pos newitem
  | _fuel + 1, heap, pos =>
    if startpos < pos then
      (if itemLt newitem (heap.getD ((pos - 1) / 2) (0, (0, 0))) = true then
        siftdownAux newitem startpos _fuel
          (heap.set pos (heap.getD ((pos - 1) / 2) (0, (0, 0)))) ((pos - 1) / 2)
      else heap.set pos newitem)
    else heap.set pos newitem

/-- CPython `heapq.heappush`. -/
noncomputable def heappush (heap : List (ℝ × (ℤ × ℤ))) (item : ℝ × (ℤ × ℤ)) :
    List (ℝ × (ℤ × ℤ)) :=
  siftdownAux item 0 (heap.length + 1) (heap ++ [item]) heap.length

/-- CPython `heapq._siftup(heap, pos)` (here `startpos = pos = 0` at the
call site): bubble the smaller child up until a leaf, put `newitem` there,
then sift it down toward the root.  `childpos ≥ pos + 1` each step, so fuel
`endpos` suffices. -/
noncomputable def siftupAux (newitem : ℝ × (ℤ × ℤ)) (startpos endpos : ℕ) :
    ℕ → List (ℝ × (ℤ × ℤ)) → ℕ → List (ℝ × (ℤ × ℤ))
  | 0, heap, pos => siftdownAux newitem startpos (pos + 1) (heap.set pos newitem) pos
  | _fuel + 1, heap, pos =>
    if 2 * pos + 1 < endpos then
      (let childpos :=
        if 2 * pos + 2 < endpos ∧
            itemLt (heap.getD (2 * pos + 1) (0, (0, 0))) (heap.getD (2 * pos + 2) (0, (0, 0)))
              = false
        then 2 * pos + 2 else 2 * pos + 1
      siftupAux newitem startpos endpos _fuel
        (heap.set pos (heap.getD childpos (0, (0, 0)))) childpos)
    else siftdownAux newitem startpos (pos + 1) (heap.set pos newitem) pos

/-- CPython `heapq.heappop` (the empty-heap `IndexError` cannot occur: the
only call site is guarded by `while openh:`). -/
noncomputable def heappop (heap : List (ℝ × (ℤ × ℤ))) :
    (ℝ × (ℤ × ℤ)) × List (ℝ × (ℤ × ℤ)) :=
  let lastelt := heap.getLastD (0, (0, 0))
  let rest := heap.dropLast
  if rest.isEmpty then (lastelt, rest)
  else
    (rest.headD (0, (0, 0)),
     siftupAux lastelt 0 (rest.set 0 lastelt).length (rest.set 0 lastelt).length
       (rest.set 0 lastelt) 0)

/-- `dict.get` on an association list updated by prepending. -/
def dget {V : Type} (m : List ((ℤ × ℤ) × V)) (k : ℤ × ℤ) : Option V :=
  (m.find? fun e => e.1 == k).map fun e => e.2

/-- `dict[k] = v` (prepend; `dget` sees the latest binding). -/
def dset {V : Type} (m : List ((ℤ × ℤ) × V)) (k : ℤ × ℤ) (v : V) : List ((ℤ × ℤ) × V) :=
  (k, v) :: m

/-- The path-reconstruction loop of `_astar` (`while c is not None`),
appending `grid_to_pt(c)` and following `came`.  The parent chain is
acyclic on reachable states, so `came.length + 1` steps suffice; a missing
key (impossible on reachable states, a `KeyError` in Python) stops the
loop. -/
noncomputable def reconLoop (came : List ((ℤ × ℤ) × Option (ℤ × ℤ))) (step : ℝ) :
    ℕ → Option (ℤ × ℤ) → List Pt → List Pt
  | _, none, acc => acc
  | 0, some _, acc => acc
  | fuel + 1, some c, acc =>
    reconLoop came step fuel ((dget came c).getD none) (acc ++ [gridToPt c step])

/-- The mutable state of the `_astar` main loop. -/
structure AStar where
  openh : List (ℝ × (ℤ × ℤ))
  came : List ((ℤ × ℤ) × Option (ℤ × ℤ))
  gscore : List ((ℤ × ℤ) × ℝ)

/-- Relaxation of one neighbour `nb` of the popped cell `cur` (the body of
the `for nx, ny in _neighbors8(cx, cy)` loop): bounds check, blocked check,
corner-cut check for diagonals, then the tentative-score comparison against
`gscore.get(nb, inf)` (`none` compares as `+inf`) with `came`/`gscore`
update and push. -/
noncomputable def relaxNeighbor (occ : List (List Bool)) (gw gh : ℕ) (step : ℝ)
    (goalG : ℤ × ℤ) (cur : ℤ × ℤ) (st : AStar) (nb : ℤ × ℤ) : AStar :=
  if inBounds nb gw gh = false then st
  else if occLookup occ nb = true then st
  else if (nb.1 ≠ cur.1 ∧ nb.2 ≠ cur.2) ∧
      (occLookup occ (nb.1, cur.2) = true ∨ occLookup occ (cur.1, nb.2) = true) then st
  else
    let stepCost := mathHypot ((nb.1 - cur.1 : ℤ) : ℝ) ((nb.2 - cur.2 : ℤ) : ℝ) * step
    let tentative := (dget st.gscore cur).getD 0 + stepCost
    let better : Bool :=
      match dget st.gscore nb with
      | none => true
      | some g => if tentative < g then true else false
    if better = true then
      { openh := heappush st.openh
          (tentative + heuristic (gridToPt nb step) (gridToPt goalG step), nb),
        came := dset st.came nb (some cur),
        gscore := dset st.gscore nb tentative }
    else st

/-- The `while openh:` loop of `_astar`: pop the smallest item, return the
reconstructed polyline when the goal is popped, otherwise relax the eight
neighbours and continue.  A fuel exhaustion returns `none` like an
exhausted open set; the call below supplies fuel far beyond any iteration
count reached in the evaluations here. -/
noncomputable def astarLoop (occ : List (List Bool)) (gw gh : ℕ) (step : ℝ)
    (goalG : ℤ × ℤ) : ℕ → AStar → Option (List Pt)
  | 0, _ => none
  | fuel + 1, st =>
    if st.openh.isEmpty then none
    else
      (let pr := heappop st.openh
      let cur := pr.1.2
      if cur = goalG then
        some (reconLoop st.came step (st.came.length + 1) (some cur) []).reverse
      else
        astarLoop occ gw gh step goalG fuel
          ((neighbors8 cur).foldl (relaxNeighbor occ gw gh step goalG cur)
            { st with openh := pr.2 }))

/-- `_astar`.  The Python loop terminates by the standard A* argument
(every push strictly lowers a recorded `gscore`); the fuel far exceeds the
iterations used in any evaluation below, and the theorems are either about
the pre-loop early exits or conditional on a `some` result. -/
noncomputable def astar (startCm goalCm : Pt) (obstacles : List Obstacle)
    (step : ℝ) : Option (List Pt) :=
  let b := buildOccupancy obstacles step
  let startG := ptToGrid startCm b.2.2.2
  let goalG := ptToGrid goalCm b.2.2.2
  if inBounds startG b.2.1 b.2.2.1 = false ∨ inBounds goalG b.2.1 b.2.2.1 = false then none
  else if occLookup b.1 startG = true ∨ occLookup b.1 goalG = true then none
  else
    astarLoop b.1 b.2.1 b.2.2.1 b.2.2.2 goalG
      ((b.2.1 * b.2.2.1 + 2) * (b.2.1 * b.2.2.1 + 2))
      { openh := heappush [] (0, startG),
        came := dset [] startG none,
        gscore := dset [] startG 0 }

/-- `_plan_segment_with_clearance`. -/
noncomputable def planSegmentWithClearance (a b : Pt) (obstacles : List Obstacle) :
    Option (List Pt) :=
  if segmentIsClear a b obstacles = true then some [a, b]
  else
    match astar a b obstacles GRID_STEP_CM with
    | none => none
    | some path0 =>
      let path1 := smoothPolyline path0 obstacles
      let path2 := if path1.headD origin ≠ a then path1.set 0 a else path1
      let path3 := if path2.getLastD origin ≠ b then path2.set (path2.length - 1) b
                   else path2
      some path3

/-- C9: if the occupancy-grid cell containing the start or the goal point
is blocked, `_astar` reports infeasible (returns no path) rather than
searching from a shifted cell. -/
theorem astar_none_of_blocked_endpoint (startCm goalCm : Pt) (obstacles : List Obstacle)
    (step : ℝ)
    (hblock : occLookup (buildOccupancy obstacles step).1 (ptToGrid startCm step) = true ∨
              occLookup (buildOccupancy obstacles step).1 (ptToGrid goalCm step) = true) :
    astar startCm goalCm obstacles step = none := by
  rw [astar]
  have hstep : (buildOccupancy obstacles step).2.2.2 = step := rfl
  rw [hstep]
  split_ifs with h1
  · rfl
  · rfl

/-- Obstacle list arising from a black fruit placed exactly on the point
`(30, 30)` (which is also used as a red target in the C3 instance): the
cell of `(30, 30)` is blocked and every segment touching `(30, 30)`
violates clearance. -/
def obsBlockedGoal : List Obstacle := [Obstacle.point 30 30 MIN_CLEARANCE_CM]

lemma getD_range_map {α : Type} (n : ℕ) (f : ℕ → α) (i : ℕ) (d : α) (h : i < n) :
    ((List.range n).map f).getD i d = f i := by
  rw [List.getD_eq_getElem?_getD, List.getElem?_map]
  simp [List.getElem?_range h]

lemma ceil_arena_w : ⌈ARENA_WIDTH_CM / (1 : ℝ)⌉ = 119 := by
  rw [ARENA_WIDTH_CM, div_one, Int.ceil_eq_iff] <;> norm_num

lemma ceil_arena_h : ⌈ARENA_HEIGHT_CM / (1 : ℝ)⌉ = 115 := by
  rw [ARENA_HEIGHT_CM, div_one, Int.ceil_eq_iff] <;> norm_num

lemma buildOccupancy_gw (obstacles : List Obstacle) :
    (buildOccupancy obstacles 1).2.1 = 120 := by
  rw [buildOccupancy]
  dsimp only
  rw [ceil_arena_w]
  rfl

lemma buildOccupancy_gh (obstacles : List Obstacle) :
    (buildOccupancy obstacles 1).2.2.1 = 116 := by
  rw [buildOccupancy]
  dsimp only
  rw [ceil_arena_h]
  rfl

lemma occLookup_buildOccupancy (obstacles : List Obstacle) (step : ℝ) (gx gy : ℕ)
    (hx : gx < (buildOccupancy obstacles step).2.1)
    (hy : gy < (buildOccupancy obstacles step).2.2.1) :
    occLookup (buildOccupancy obstacles step).1 ((gx : ℤ), (gy : ℤ)) =
      blockedCell obstacles step gx gy := by
  rw [buildOccupancy] at hx hy ⊢
  dsimp only at hx hy ⊢
  rw [occLookup]
  dsimp only
  rw [Int.toNat_natCast, Int.toNat_natCast]
  rw [getD_range_map _ _ _ _ hy, getD_range_map _ _ _ _ hx]

lemma blockedCell_goal : blockedCell obsBlockedGoal 1 30 30 = true := by
  simp only [blockedCell, obsBlockedGoal, List.any_cons, List.any_nil, MIN_CLEARANCE_CM]
  norm_num

lemma blockedCell_start : blockedCell obsBlockedGoal 1 5 5 = false := by
  simp only [blockedCell, obsBlockedGoal, List.any_cons, List.any_nil, MIN_CLEARANCE_CM]
  norm_num

lemma pyRound_real_ofNat (n : ℕ) : pyRound ((n : ℝ)) = n := by
  rw [pyRound]
  rw [if_neg (by
    rw [show ((n : ℝ)) = ((n : ℤ) : ℝ) by push_cast; ring, Int.fract_intCast]
    norm_num)]
  rw [show ((n : ℝ) + 1/2) = (1/2 : ℝ) + ((n : ℤ) : ℝ) by push_cast; ring]
  rw [Int.floor_add_int]
  norm_num

lemma ptToGrid_nat (a b : ℕ) : ptToGrid (((a : ℝ)), ((b : ℝ))) GRID_STEP_CM = ((a : ℤ), (b : ℤ)) := by
  rw [ptToGrid, GRID_STEP_CM]
  dsimp only
  rw [div_one, div_one, pyRound_real_ofNat, pyRound_real_ofNat]

lemma occ_block_30 :
    occLookup (buildOccupancy obsBlockedGoal GRID_STEP_CM).1
      (ptToGrid ((30 : ℝ), (30 : ℝ)) GRID_STEP_CM) = true := by
  have h : ptToGrid ((30 : ℝ), (30 : ℝ)) GRID_STEP_CM = (((30 : ℕ) : ℤ), ((30 : ℕ) : ℤ)) := by
    rw [show ((30 : ℝ), (30 : ℝ)) = ((((30 : ℕ) : ℝ)), (((30 : ℕ) : ℝ))) by norm_num]
    exact ptToGrid_nat 30 30
  rw [h, GRID_STEP_CM]
  rw [occLookup_buildOccupancy obsBlockedGoal 1 30 30
    (by rw [buildOccupancy_gw]; norm_num) (by rw [buildOccupancy_gh]; norm_num)]
  exact blockedCell_goal

/-- C9 (witness): with a black fruit sitting exactly on the goal point
`(30, 30)`, the goal's grid cell is blocked and the grid search from
`(5, 5)` reports infeasible. -/
theorem astar_none_of_blocked_endpoint_witness :
    astar ((5 : ℝ), (5 : ℝ)) ((30 : ℝ), (30 : ℝ)) obsBlockedGoal GRID_STEP_CM = none :=
  astar_none_of_blocked_endpoint ((5 : ℝ), (5 : ℝ)) ((30 : ℝ), (30 : ℝ)) obsBlockedGoal
    GRID_STEP_CM (Or.inr occ_block_30)

lemma astar_none_5_30 :
    astar ((5 : ℝ), (5 : ℝ)) ((30 : ℝ), (30 : ℝ)) obsBlockedGoal GRID_STEP_CM = none := by
  rw [astar]
  have hstep : (buildOccupancy obsBlockedGoal GRID_STEP_CM).2.2.2 = GRID_STEP_CM := rfl
  rw [hstep]
  have hb : occLookup (buildOccupancy obsBlockedGoal GRID_STEP_CM).1
      (ptToGrid ((5 : ℝ), (5 : ℝ)) GRID_STEP_CM) = true ∨
      occLookup (buildOccupancy obsBlockedGoal GRID_STEP_CM).1
        (ptToGrid ((30 : ℝ), (30 : ℝ)) GRID_STEP_CM) = true := Or.inr occ_block_30
  split_ifs with h1
  · rfl
  · rfl

lemma astar_none_30_100 :
    astar ((30 : ℝ), (30 : ℝ)) ((100 : ℝ), (100 : ℝ)) obsBlockedGoal GRID_STEP_CM = none := by
  rw [astar]
  have hstep : (buildOccupancy obsBlockedGoal GRID_STEP_CM).2.2.2 = GRID_STEP_CM := rfl
  rw [hstep]
  have hb : occLookup (buildOccupancy obsBlockedGoal GRID_STEP_CM).1
      (ptToGrid ((30 : ℝ), (30 : ℝ)) GRID_STEP_CM) = true ∨
      occLookup (buildOccupancy obsBlockedGoal GRID_STEP_CM).1
        (ptToGrid ((100 : ℝ), (100 : ℝ)) GRID_STEP_CM) = true := Or.inl occ_block_30
  split_ifs with h1
  · rfl
  · rfl

lemma segClear_5_30 :
    segmentIsClear ((5 : ℝ), (5 : ℝ)) ((30 : ℝ), (30 : ℝ)) obsBlockedGoal = false := by
  simp only [segmentIsClear, obsBlockedGoal, List.all_cons, List.all_nil,
    obstacleDistToSegment, Obstacle.clearance, distancePointToSegment, mathHypot,
    MIN_CLEARANCE_CM]
  norm_num [max_def, min_def]

lemma segClear_30_100 :
    segmentIsClear ((30 : ℝ), (30 : ℝ)) ((100 : ℝ), (100 : ℝ)) obsBlockedGoal = false := by
  simp only [segmentIsClear, obsBlockedGoal, List.all_cons, List.all_nil,
    obstacleDistToSegment, Obstacle.clearance, distancePointToSegment, mathHypot,
    MIN_CLEARANCE_CM]
  norm_num [max_def, min_def]

lemma plan_none_5_30 :
    planSegmentWithClearance ((5 : ℝ), (5 : ℝ)) ((30 : ℝ), (30 : ℝ)) obsBlockedGoal = none := by
  rw [planSegmentWithClearance, segClear_5_30, astar_none_5_30]
  simp

lemma plan_none_30_100 :
    planSegmentWithClearance ((30 : ℝ), (30 : ℝ)) ((100 : ℝ), (100 : ℝ)) obsBlockedGoal
      = none := by
  rw [planSegmentWithClearance, segClear_30_100, astar_none_30_100]
  simp

/-- C2 (counterexample): with a point obstacle on `(30, 30)` the direct
segment `(30,30) → (100,100)` is not clear and the grid search fails
(the start cell is blocked), yet `_plan_segment_with_clearance` returns
`None` — it does not degrade to `[a, b]`. -/
theorem plan_segment_refuses_concrete :
    segmentIsClear ((30 : ℝ), (30 : ℝ)) ((100 : ℝ), (100 : ℝ)) obsBlockedGoal = false ∧
    astar ((30 : ℝ), (30 : ℝ)) ((100 : ℝ), (100 : ℝ)) obsBlockedGoal GRID_STEP_CM = none ∧
    planSegmentWithClearance ((30 : ℝ), (30 : ℝ)) ((100 : ℝ), (100 : ℝ)) obsBlockedGoal
      = none :=
  ⟨segClear_30_100, astar_none_30_100, plan_none_30_100⟩

/-- C2 (amended): when the direct segment is not clear and the grid search
fails, the Segment Planner function itself returns `None` (refuses); the
degrade-to-`[a, b]` behaviour lives only at specific call sites of
`build_auto_path` (the final leg to the end point), not in
`_plan_segment_with_clearance`. -/
theorem plan_segment_none_of_astar_none (a b : Pt) (obstacles : List Obstacle)
    (h1 : segmentIsClear a b obstacles = false)
    (h2 : astar a b obstacles GRID_STEP_CM = none) :
    planSegmentWithClearance a b obstacles = none := by
  rw [planSegmentWithClearance, h1, h2]
  simp

/-- C2 (witness): the hypotheses of the amended statement hold at the
concrete blocked instance `(5,5) → (30,30)`, where the planner returns
`None`. -/
theorem plan_segment_none_of_astar_none_witness :
    planSegmentWithClearance ((5 : ℝ), (5 : ℝ)) ((30 : ℝ), (30 : ℝ)) obsBlockedGoal = none :=
  plan_segment_none_of_astar_none ((5 : ℝ), (5 : ℝ)) ((30 : ℝ), (30 : ℝ)) obsBlockedGoal
    segClear_5_30 astar_none_5_30

lemma distCm_eq_complexAbs (a b : Pt) :
    distCm a b = Complex.abs ⟨a.1 - b.1, a.2 - b.2⟩ := by
  rw [distCm, mathHypot, complexAbs_mk]

lemma distCm_triangle (a b c : Pt) : distCm a c ≤ distCm a b + distCm b c := by
  rw [distCm_eq_complexAbs, distCm_eq_complexAbs, distCm_eq_complexAbs]
  have h : (⟨a.1 - c.1, a.2 - c.2⟩ : ℂ) =
      (⟨a.1 - b.1, a.2 - b.2⟩ : ℂ) + (⟨b.1 - c.1, b.2 - c.2⟩ : ℂ) := by
    apply Complex.ext
    · simp only [Complex.add_re]
      ring_nf
    · simp only [Complex.add_im]
      ring_nf
  rw [h]
  exact Complex.abs.add_le _ _

lemma distCm_self (a : Pt) : distCm a a = 0 := by
  rw [distCm, mathHypot]
  norm_num

lemma getLastD_irrel (l : List Pt) (hl : l ≠ []) (d1 d2 : Pt) :
    l.getLastD d1 = l.getLastD d2 := by
  rw [List.getLastD_eq_getLast?, List.getLastD_eq_getLast?]
  obtain ⟨x, hx⟩ := Option.isSome_iff_exists.mp (List.getLast?_isSome.mpr hl)
  rw [hx]
  rfl

theorem polylineLength_ge_endpoints : ∀ p : List Pt,
    distCm (p.headD origin) (p.getLastD origin) ≤ polylineLength p
  | [] => by simp [polylineLength, distCm_self]
  | [a] => by simp [polylineLength, distCm_self]
  | a :: b :: rest => by
    have ih := polylineLength_ge_endpoints (b :: rest)
    rw [polylineLength]
    have h1 : (a :: b :: rest).getLastD origin = (b :: rest).getLastD origin := by
      rw [List.getLastD_cons]
      exact getLastD_irrel (b :: rest) (by simp) a origin
    have h2 : (a :: b :: rest).headD origin = a := rfl
    have h3 : (b :: rest).headD origin = b := rfl
    rw [h1, h2]
    calc distCm a ((b :: rest).getLastD origin)
        ≤ distCm a b + distCm b ((b :: rest).getLastD origin) := distCm_triangle _ _ _
      _ ≤ distCm a b + polylineLength (b :: rest) := by
          rw [h3] at ih
          linarith

lemma reconLoop_length_ge (came : List ((ℤ × ℤ) × Option (ℤ × ℤ))) (step : ℝ) :
    ∀ (fuel : ℕ) (c : Option (ℤ × ℤ)) (acc : List Pt),
      acc.length ≤ (reconLoop came step fuel c acc).length := by
  intro fuel
  induction fuel with
  | zero =>
    intro c acc
    cases c with
    | none => simp [reconLoop]
    | some cc => simp [reconLoop]
  | succ n ih =>
    intro c acc
    cases c with
    | none => simp [reconLoop]
    | some cc =>
      rw [reconLoop]
      calc acc.length ≤ (acc ++ [gridToPt cc step]).length := by simp
        _ ≤ _ := ih _ _

lemma astarLoop_some_ne_nil (occ : List (List Bool)) (gw gh : ℕ) (step : ℝ)
    (goalG : ℤ × ℤ) :
    ∀ (fuel : ℕ) (st : AStar) (p : List Pt),
      astarLoop occ gw gh step goalG fuel st = some p → p ≠ [] := by
  intro fuel
  induction fuel with
  | zero =>
    intro st p h
    simp [astarLoop] at h
  | succ n ih =>
    intro st p h
    rw [astarLoop] at h
    by_cases h1 : st.openh.isEmpty = true
    · rw [if_pos h1] at h
      exact Option.noConfusion h
    · rw [if_neg h1] at h
      dsimp only at h
      by_cases h2 : (heappop st.openh).1.2 = goalG
      · rw [if_pos h2] at h
        have hrec : 1 ≤ (reconLoop st.came step (st.came.length + 1)
            (some (heappop st.openh).1.2) []).length := by
          rw [reconLoop]
          calc 1 = (([] : List Pt) ++ [gridToPt (heappop st.openh).1.2 step]).length := by
                simp
            _ ≤ _ := reconLoop_length_ge _ _ _ _ _
        have hp := Option.some.inj h
        intro hnil
        rw [hnil] at hp
        have hlen := congrArg List.length hp
        simp only [List.length_reverse, List.length_nil] at hlen
        omega
      · rw [if_neg h2] at h
        exact ih _ _ h

/-- C1 (amended): any polyline returned by the A* grid search is nonempty
and its total length is at least the Euclidean distance between its first
and last waypoints (triangle inequality).  The claimed upper bound —
length within one grid step of the start–goal Euclidean distance — fails in
general: endpoint grid-rounding and the 8-connected (octile) metric can
exceed it by more than one step. -/
theorem astar_some_length_ge_endpoint_dist (s g : Pt) (obstacles : List Obstacle)
    (step : ℝ) (p : List Pt) (h : astar s g obstacles step = some p) :
    p ≠ [] ∧ distCm (p.headD origin) (p.getLastD origin) ≤ polylineLength p := by
  refine ⟨?_, polylineLength_ge_endpoints p⟩
  rw [astar] at h
  split_ifs at h with h1 h2
  all_goals first
    | exact Option.noConfusion h
    | exact astarLoop_some_ne_nil _ _ _ _ _ _ _ p h

lemma pyRound_049 : pyRound ((0.49 : ℝ)) = 0 := by
  rw [pyRound]
  rw [if_neg (by
    rw [Int.fract]
    norm_num)]
  norm_num

lemma pyRound_051 : pyRound ((0.51 : ℝ)) = 1 := by
  rw [pyRound]
  rw [if_neg (by
    rw [Int.fract]
    norm_num)]
  norm_num

lemma ptToGrid_049 : ptToGrid ((0.49 : ℝ), (0.49 : ℝ)) 1 = ((0 : ℤ), (0 : ℤ)) := by
  rw [ptToGrid]
  dsimp only
  rw [div_one, pyRound_049]

lemma ptToGrid_051 : ptToGrid ((0.51 : ℝ), (0.51 : ℝ)) 1 = ((1 : ℤ), (1 : ℤ)) := by
  rw [ptToGrid]
  dsimp only
  rw [div_one, pyRound_051]

lemma occFree (gx gy : ℕ) (hx : gx < 120) (hy : gy < 116) :
    occLookup (buildOccupancy [] 1).1 ((gx : ℤ), (gy : ℤ)) = false := by
  rw [occLookup_buildOccupancy [] 1 gx gy (by rw [buildOccupancy_gw]; omega)
    (by rw [buildOccupancy_gh]; omega)]
  rfl

lemma occ_00 : occLookup (buildOccupancy [] 1).1 ((0 : ℤ), (0 : ℤ)) = false := by
  simpa using occFree 0 0 (by norm_num) (by norm_num)

lemma occ_10 : occLookup (buildOccupancy [] 1).1 ((1 : ℤ), (0 : ℤ)) = false := by
  simpa using occFree 1 0 (by norm_num) (by norm_num)

lemma occ_01 : occLookup (buildOccupancy [] 1).1 ((0 : ℤ), (1 : ℤ)) = false := by
  simpa using occFree 0 1 (by norm_num) (by norm_num)

lemma occ_11 : occLookup (buildOccupancy [] 1).1 ((1 : ℤ), (1 : ℤ)) = false := by
  simpa using occFree 1 1 (by norm_num) (by norm_num)

lemma heappush_nil (x : ℝ × (ℤ × ℤ)) : heappush [] x = [x] := by
  rw [heappush]
  rw [show ([] : List (ℝ × (ℤ × ℤ))) ++ [x] = [x] from rfl]
  rw [show ([] : List (ℝ × (ℤ × ℤ))).length = 0 from rfl]
  rw [siftdownAux]
  rw [if_neg (by omega)]
  rfl

lemma sqrt_two_lt_two : Real.sqrt 2 < 2 :=
  (Real.sqrt_lt' (by norm_num)).mpr (by norm_num)

lemma itemLt_BA :
    itemLt ((2 : ℝ), ((0 : ℤ), (1 : ℤ))) ((2 : ℝ), ((1 : ℤ), (0 : ℤ))) = true := by
  rw [itemLt]
  norm_num

lemma itemLt_CB :
    itemLt (Real.sqrt 2, ((1 : ℤ), (1 : ℤ))) ((2 : ℝ), ((0 : ℤ), (1 : ℤ))) = true := by
  rw [itemLt]
  rw [if_pos sqrt_two_lt_two]

lemma push_BA :
    heappush [((2 : ℝ), ((1 : ℤ), (0 : ℤ)))] ((2 : ℝ), ((0 : ℤ), (1 : ℤ))) =
      [((2 : ℝ), ((0 : ℤ), (1 : ℤ))), ((2 : ℝ), ((1 : ℤ), (0 : ℤ)))] := by
  rw [heappush]
  rw [siftdownAux]
  rw [if_pos (by norm_num)]
  rw [show ([((2 : ℝ), ((1 : ℤ), (0 : ℤ)))].length - 1) / 2 = 0 from rfl]
  rw [show ([((2 : ℝ), ((1 : ℤ), (0 : ℤ)))] ++ [((2 : ℝ), ((0 : ℤ), (1 : ℤ)))]).getD 0
      (0, (0, 0)) = ((2 : ℝ), ((1 : ℤ), (0 : ℤ))) from rfl]
  rw [if_pos itemLt_BA]
  rw [show ([((2 : ℝ), ((1 : ℤ), (0 : ℤ)))].length : ℕ) = 0 + 1 from rfl]
  rw [siftdownAux]
  rw [if_neg (by omega)]
  rfl

lemma push_CBA :
    heappush [((2 : ℝ), ((0 : ℤ), (1 : ℤ))), ((2 : ℝ), ((1 : ℤ), (0 : ℤ)))]
        (Real.sqrt 2, ((1 : ℤ), (1 : ℤ))) =
      [(Real.sqrt 2, ((1 : ℤ), (1 : ℤ))), ((2 : ℝ), ((1 : ℤ), (0 : ℤ))),
       ((2 : ℝ), ((0 : ℤ), (1 : ℤ)))] := by
  rw [heappush]
  rw [siftdownAux]
  rw [if_pos (by norm_num)]
  rw [show ([((2 : ℝ), ((0 : ℤ), (1 : ℤ))), ((2 : ℝ), ((1 : ℤ), (0 : ℤ)))].length - 1) / 2
      = 0 from rfl]
  rw [show ([((2 : ℝ), ((0 : ℤ), (1 : ℤ))), ((2 : ℝ), ((1 : ℤ), (0 : ℤ)))] ++
      [(Real.sqrt 2, ((1 : ℤ), (1 : ℤ)))]).getD 0 (0, (0, 0)) =
      ((2 : ℝ), ((0 : ℤ), (1 : ℤ))) from rfl]
  rw [if_pos itemLt_CB]
  rw [show ([((2 : ℝ), ((0 : ℤ), (1 : ℤ))), ((2 : ℝ), ((1 : ℤ), (0 : ℤ)))].length : ℕ)
      = 1 + 1 from rfl]
  rw [siftdownAux]
  rw [if_neg (by omega)]
  rfl

lemma pop_single :
    heappop [((0 : ℝ), ((0 : ℤ), (0 : ℤ)))] = (((0 : ℝ), ((0 : ℤ), (0 : ℤ))), []) := by
  rw [heappop]
  rfl

lemma siftupAux_one (ni : ℝ × (ℤ × ℤ)) (sp ep : ℕ) (heap : List (ℝ × (ℤ × ℤ)))
    (pos : ℕ) :
    siftupAux ni sp ep 1 heap pos =
      if 2 * pos + 1 < ep then
        (let childpos :=
          if 2 * pos + 2 < ep ∧
              itemLt (heap.getD (2 * pos + 1) (0, (0, 0)))
                (heap.getD (2 * pos + 2) (0, (0, 0))) = false
          then 2 * pos + 2 else 2 * pos + 1
        siftupAux ni sp ep 0 (heap.set pos (heap.getD childpos (0, (0, 0)))) childpos)
      else siftdownAux ni sp (pos + 1) (heap.set pos ni) pos := rfl

lemma pop_CAB :
    heappop [(Real.sqrt 2, ((1 : ℤ), (1 : ℤ))), ((2 : ℝ), ((1 : ℤ), (0 : ℤ))),
        ((2 : ℝ), ((0 : ℤ), (1 : ℤ)))] =
      ((Real.sqrt 2, ((1 : ℤ), (1 : ℤ))),
       [((2 : ℝ), ((0 : ℤ), (1 : ℤ))), ((2 : ℝ), ((1 : ℤ), (0 : ℤ)))]) := by
  rw [heappop]
  rw [show ([(Real.sqrt 2, ((1 : ℤ), (1 : ℤ))), ((2 : ℝ), ((1 : ℤ), (0 : ℤ))),
      ((2 : ℝ), ((0 : ℤ), (1 : ℤ)))] : List (ℝ × (ℤ × ℤ))).dropLast =
      [(Real.sqrt 2, ((1 : ℤ), (1 : ℤ))), ((2 : ℝ), ((1 : ℤ), (0 : ℤ)))] from rfl]
  rw [if_neg (by simp)]
  rw [show (([(Real.sqrt 2, ((1 : ℤ), (1 : ℤ))), ((2 : ℝ), ((1 : ℤ), (0 : ℤ))),
      ((2 : ℝ), ((0 : ℤ), (1 : ℤ)))] : List (ℝ × (ℤ × ℤ))).getLastD (0, (0, 0))) =
      ((2 : ℝ), ((0 : ℤ), (1 : ℤ))) from rfl]
  rw [show ([(Real.sqrt 2, ((1 : ℤ), (1 : ℤ))), ((2 : ℝ), ((1 : ℤ), (0 : ℤ)))].set 0
      ((2 : ℝ), ((0 : ℤ), (1 : ℤ)))) =
      [((2 : ℝ), ((0 : ℤ), (1 : ℤ))), ((2 : ℝ), ((1 : ℤ), (0 : ℤ)))] from rfl]
  rw [show ([((2 : ℝ), ((0 : ℤ), (1 : ℤ))), ((2 : ℝ), ((1 : ℤ), (0 : ℤ)))].length : ℕ) =
      1 + 1 from rfl]
  rw [siftupAux]
  rw [if_pos (by norm_num)]
  rw [if_neg (by norm_num)]
  dsimp only
  rw [show ([((2 : ℝ), ((0 : ℤ), (1 : ℤ))), ((2 : ℝ), ((1 : ℤ), (0 : ℤ)))].getD (2 * 0 + 1)
      (0, (0, 0))) = ((2 : ℝ), ((1 : ℤ), (0 : ℤ))) from rfl]
  rw [show ([((2 : ℝ), ((0 : ℤ), (1 : ℤ))), ((2 : ℝ), ((1 : ℤ), (0 : ℤ)))].set 0
      ((2 : ℝ), ((1 : ℤ), (0 : ℤ)))) =
      [((2 : ℝ), ((1 : ℤ), (0 : ℤ))), ((2 : ℝ), ((1 : ℤ), (0 : ℤ)))] from rfl]
  rw [siftupAux_one]
  rw [if_neg (by norm_num)]
  rw [show ([((2 : ℝ), ((1 : ℤ), (0 : ℤ))), ((2 : ℝ), ((1 : ℤ), (0 : ℤ)))].set (2 * 0 + 1)
      ((2 : ℝ), ((0 : ℤ), (1 : ℤ)))) =
      [((2 : ℝ), ((1 : ℤ), (0 : ℤ))), ((2 : ℝ), ((0 : ℤ), (1 : ℤ)))] from rfl]
  rw [siftdownAux]
  rw [if_pos (by norm_num)]
  rw [show ((2 * 0 + 1 : ℕ) - 1) / 2 = 0 from rfl]
  rw [show ([((2 : ℝ), ((1 : ℤ), (0 : ℤ))), ((2 : ℝ), ((0 : ℤ), (1 : ℤ)))].getD 0
      (0, (0, 0))) = ((2 : ℝ), ((1 : ℤ), (0 : ℤ))) from rfl]
  rw [if_pos itemLt_BA]
  rw [show ([((2 : ℝ), ((1 : ℤ), (0 : ℤ))), ((2 : ℝ), ((0 : ℤ), (1 : ℤ)))].set (2 * 0 + 1)
      ((2 : ℝ), ((1 : ℤ), (0 : ℤ)))) =
      [((2 : ℝ), ((1 : ℤ), (0 : ℤ))), ((2 : ℝ), ((1 : ℤ), (0 : ℤ)))] from rfl]
  rw [siftdownAux]
  rw [if_neg (by omega)]
  rfl

lemma relax_oob (occ : List (List Bool)) (goalG cur : ℤ × ℤ) (st : AStar) (nb : ℤ × ℤ)
    (h : inBounds nb 120 116 = false) :
    relaxNeighbor occ 120 116 1 goalG cur st nb = st := by
  rw [relaxNeighbor, if_pos h]

lemma relax_10 :
    relaxNeighbor (buildOccupancy [] 1).1 120 116 1 ((1 : ℤ), (1 : ℤ)) ((0 : ℤ), (0 : ℤ))
      ⟨[], [(((0 : ℤ), (0 : ℤ)), none)], [(((0 : ℤ), (0 : ℤ)), (0 : ℝ))]⟩
      ((1 : ℤ), (0 : ℤ)) =
    ⟨[((2 : ℝ), ((1 : ℤ), (0 : ℤ)))],
     [(((1 : ℤ), (0 : ℤ)), some ((0 : ℤ), (0 : ℤ))), (((0 : ℤ), (0 : ℤ)), none)],
     [(((1 : ℤ), (0 : ℤ)), (1 : ℝ)), (((0 : ℤ), (0 : ℤ)), (0 : ℝ))]⟩ := by
  rw [relaxNeighbor]
  rw [if_neg (by decide)]
  rw [if_neg (by rw [occ_10]; simp)]
  rw [if_neg (by intro hc; exact hc.1.2 rfl)]
  rw [show dget ([(((0 : ℤ), (0 : ℤ)), (0 : ℝ))]) ((0 : ℤ), (0 : ℤ)) = some (0 : ℝ) from rfl]
  rw [show dget ([(((0 : ℤ), (0 : ℤ)), (0 : ℝ))]) ((1 : ℤ), (0 : ℤ)) = none from rfl]
  rw [if_pos rfl]
  have ht : (some (0 : ℝ)).getD 0 +
      mathHypot (((1 : ℤ), (0 : ℤ)).1 - ((0 : ℤ), (0 : ℤ)).1 : ℤ)
        (((1 : ℤ), (0 : ℤ)).2 - ((0 : ℤ), (0 : ℤ)).2 : ℤ) * 1 = 1 := by
    rw [mathHypot]
    norm_num
  rw [ht]
  have hh : heuristic (gridToPt ((1 : ℤ), (0 : ℤ)) 1) (gridToPt ((1 : ℤ), (1 : ℤ)) 1)
      = 1 := by
    rw [heuristic, gridToPt, gridToPt, mathHypot]
    norm_num
  rw [hh]
  rw [show (1 : ℝ) + 1 = 2 from by norm_num]
  rw [heappush_nil]
  rfl

lemma relax_01 :
    relaxNeighbor (buildOccupancy [] 1).1 120 116 1 ((1 : ℤ), (1 : ℤ)) ((0 : ℤ), (0 : ℤ))
      ⟨[((2 : ℝ), ((1 : ℤ), (0 : ℤ)))],
       [(((1 : ℤ), (0 : ℤ)), some ((0 : ℤ), (0 : ℤ))), (((0 : ℤ), (0 : ℤ)), none)],
       [(((1 : ℤ), (0 : ℤ)), (1 : ℝ)), (((0 : ℤ), (0 : ℤ)), (0 : ℝ))]⟩
      ((0 : ℤ), (1 : ℤ)) =
    ⟨[((2 : ℝ), ((0 : ℤ), (1 : ℤ))), ((2 : ℝ), ((1 : ℤ), (0 : ℤ)))],
     [(((0 : ℤ), (1 : ℤ)), some ((0 : ℤ), (0 : ℤ))),
      (((1 : ℤ), (0 : ℤ)), some ((0 : ℤ), (0 : ℤ))), (((0 : ℤ), (0 : ℤ)), none)],
     [(((0 : ℤ), (1 : ℤ)), (1 : ℝ)),
      (((1 : ℤ), (0 : ℤ)), (1 : ℝ)), (((0 : ℤ), (0 : ℤ)), (0 : ℝ))]⟩ := by
  rw [relaxNeighbor]
  rw [if_neg (by decide)]
  rw [if_neg (by rw [occ_01]; simp)]
  rw [if_neg (by intro hc; exact hc.1.1 rfl)]
  rw [show dget ([(((1 : ℤ), (0 : ℤ)), (1 : ℝ)), (((0 : ℤ), (0 : ℤ)), (0 : ℝ))])
      ((0 : ℤ), (0 : ℤ)) = some (0 : ℝ) from rfl]
  rw [show dget ([(((1 : ℤ), (0 : ℤ)), (1 : ℝ)), (((0 : ℤ), (0 : ℤ)), (0 : ℝ))])
      ((0 : ℤ), (1 : ℤ)) = none from rfl]
  rw [if_pos rfl]
  have ht : (some (0 : ℝ)).getD 0 +
      mathHypot (((0 : ℤ), (1 : ℤ)).1 - ((0 : ℤ), (0 : ℤ)).1 : ℤ)
        (((0 : ℤ), (1 : ℤ)).2 - ((0 : ℤ), (0 : ℤ)).2 : ℤ) * 1 = 1 := by
    rw [mathHypot]
    norm_num
  rw [ht]
  have hh : heuristic (gridToPt ((0 : ℤ), (1 : ℤ)) 1) (gridToPt ((1 : ℤ), (1 : ℤ)) 1)
      = 1 := by
    rw [heuristic, gridToPt, gridToPt, mathHypot]
    norm_num
  rw [hh]
  rw [show (1 : ℝ) + 1 = 2 from by norm_num]
  rw [push_BA]
  rfl

lemma relax_11 :
    relaxNeighbor (buildOccupancy [] 1).1 120 116 1 ((1 : ℤ), (1 : ℤ)) ((0 : ℤ), (0 : ℤ))
      ⟨[((2 : ℝ), ((0 : ℤ), (1 : ℤ))), ((2 : ℝ), ((1 : ℤ), (0 : ℤ)))],
       [(((0 : ℤ), (1 : ℤ)), some ((0 : ℤ), (0 : ℤ))),
        (((1 : ℤ), (0 : ℤ)), some ((0 : ℤ), (0 : ℤ))), (((0 : ℤ), (0 : ℤ)), none)],
       [(((0 : ℤ), (1 : ℤ)), (1 : ℝ)),
        (((1 : ℤ), (0 : ℤ)), (1 : ℝ)), (((0 : ℤ), (0 : ℤ)), (0 : ℝ))]⟩
      ((1 : ℤ), (1 : ℤ)) =
    ⟨[(Real.sqrt 2, ((1 : ℤ), (1 : ℤ))), ((2 : ℝ), ((1 : ℤ), (0 : ℤ))),
      ((2 : ℝ), ((0 : ℤ), (1 : ℤ)))],
     [(((1 : ℤ), (1 : ℤ)), some ((0 : ℤ), (0 : ℤ))),
      (((0 : ℤ), (1 : ℤ)), some ((0 : ℤ), (0 : ℤ))),
      (((1 : ℤ), (0 : ℤ)), some ((0 : ℤ), (0 : ℤ))), (((0 : ℤ), (0 : ℤ)), none)],
     [(((1 : ℤ), (1 : ℤ)), Real.sqrt 2), (((0 : ℤ), (1 : ℤ)), (1 : ℝ)),
      (((1 : ℤ), (0 : ℤ)), (1 : ℝ)), (((0 : ℤ), (0 : ℤ)), (0 : ℝ))]⟩ := by
  rw [relaxNeighbor]
  rw [if_neg (by decide)]
  rw [if_neg (by rw [occ_11]; simp)]
  rw [if_neg (by
    intro hc
    rcases hc.2 with h | h
    · rw [show ((((1 : ℤ), (1 : ℤ)).1, ((0 : ℤ), (0 : ℤ)).2) : ℤ × ℤ) =
          ((1 : ℤ), (0 : ℤ)) from rfl, occ_10] at h
      exact Bool.noConfusion h
    · rw [show ((((0 : ℤ), (0 : ℤ)).1, ((1 : ℤ), (1 : ℤ)).2) : ℤ × ℤ) =
          ((0 : ℤ), (1 : ℤ)) from rfl, occ_01] at h
      exact Bool.noConfusion h)]
  rw [show dget ([(((0 : ℤ), (1 : ℤ)), (1 : ℝ)),
      (((1 : ℤ), (0 : ℤ)), (1 : ℝ)), (((0 : ℤ), (0 : ℤ)), (0 : ℝ))])
      ((0 : ℤ), (0 : ℤ)) = some (0 : ℝ) from rfl]
  rw [show dget ([(((0 : ℤ), (1 : ℤ)), (1 : ℝ)),
      (((1 : ℤ), (0 : ℤ)), (1 : ℝ)), (((0 : ℤ), (0 : ℤ)), (0 : ℝ))])
      ((1 : ℤ), (1 : ℤ)) = none from rfl]
  rw [if_pos rfl]
  have ht : (some (0 : ℝ)).getD 0 +
      mathHypot (((1 : ℤ), (1 : ℤ)).1 - ((0 : ℤ), (0 : ℤ)).1 : ℤ)
        (((1 : ℤ), (1 : ℤ)).2 - ((0 : ℤ), (0 : ℤ)).2 : ℤ) * 1 = Real.sqrt 2 := by
    rw [mathHypot]
    norm_num
  rw [ht]
  have hh : heuristic (gridToPt ((1 : ℤ), (1 : ℤ)) 1) (gridToPt ((1 : ℤ), (1 : ℤ)) 1)
      = 0 := by
    rw [heuristic, gridToPt, mathHypot]
    norm_num [Real.sqrt_zero]
  rw [hh]
  rw [show Real.sqrt 2 + 0 = Real.sqrt 2 from by ring]
  rw [push_CBA]
  rfl

lemma astar_free_eval :
    astar ((0.49 : ℝ), (0.49 : ℝ)) ((0.51 : ℝ), (0.51 : ℝ)) [] GRID_STEP_CM =
      some [((0 : ℝ), (0 : ℝ)), ((1 : ℝ), (1 : ℝ))] := by
  rw [GRID_STEP_CM, astar]
  rw [show (buildOccupancy ([] : List Obstacle) 1).2.2.2 = (1 : ℝ) from rfl]
  rw [buildOccupancy_gw, buildOccupancy_gh]
  rw [ptToGrid_049, ptToGrid_051]
  rw [if_neg (by decide)]
  rw [if_neg (by rw [occ_00, occ_11]; simp)]
  rw [heappush_nil]
  rw [show dset ([] : List ((ℤ × ℤ) × Option (ℤ × ℤ))) ((0 : ℤ), (0 : ℤ)) none =
      [(((0 : ℤ), (0 : ℤ)), none)] from rfl]
  rw [show dset ([] : List ((ℤ × ℤ) × ℝ)) ((0 : ℤ), (0 : ℤ)) 0 =
      [(((0 : ℤ), (0 : ℤ)), (0 : ℝ))] from rfl]
  rw [show ((120 * 116 + 2) * (120 * 116 + 2) : ℕ) = 193822083 + 1 from by norm_num]
  rw [astarLoop]
  rw [if_neg (by simp)]
  dsimp only
  rw [pop_single]
  dsimp only
  rw [if_neg (by decide)]
  rw [show neighbors8 ((0 : ℤ), (0 : ℤ)) =
      [((-1 : ℤ), (-1 : ℤ)), ((0 : ℤ), (-1 : ℤ)), ((1 : ℤ), (-1 : ℤ)),
       ((-1 : ℤ), (0 : ℤ)), ((1 : ℤ), (0 : ℤ)),
       ((-1 : ℤ), (1 : ℤ)), ((0 : ℤ), (1 : ℤ)), ((1 : ℤ), (1 : ℤ))] from by decide]
  rw [List.foldl_cons, relax_oob _ _ _ _ _ (by decide)]
  rw [List.foldl_cons, relax_oob _ _ _ _ _ (by decide)]
  rw [List.foldl_cons, relax_oob _ _ _ _ _ (by decide)]
  rw [List.foldl_cons, relax_oob _ _ _ _ _ (by decide)]
  rw [List.foldl_cons, relax_10]
  rw [List.foldl_cons, relax_oob _ _ _ _ _ (by decide)]
  rw [List.foldl_cons, relax_01]
  rw [List.foldl_cons, relax_11]
  rw [List.foldl_nil]
  rw [show (193822083 : ℕ) = 193822082 + 1 from by norm_num]
  rw [astarLoop]
  rw [if_neg (by simp)]
  dsimp only
  rw [pop_CAB]
  dsimp only
  rw [if_pos rfl]
  rw [show ([(((1 : ℤ), (1 : ℤ)), some ((0 : ℤ), (0 : ℤ))),
      (((0 : ℤ), (1 : ℤ)), some ((0 : ℤ), (0 : ℤ))),
      (((1 : ℤ), (0 : ℤ)), some ((0 : ℤ), (0 : ℤ))),
      (((0 : ℤ), (0 : ℤ)), (none : Option (ℤ × ℤ)))].length + 1 : ℕ) = 4 + 1 from rfl]
  rw [reconLoop]
  rw [show dget ([(((1 : ℤ), (1 : ℤ)), some ((0 : ℤ), (0 : ℤ))),
      (((0 : ℤ), (1 : ℤ)), some ((0 : ℤ), (0 : ℤ))),
      (((1 : ℤ), (0 : ℤ)), some ((0 : ℤ), (0 : ℤ))),
      (((0 : ℤ), (0 : ℤ)), (none : Option (ℤ × ℤ)))]) ((1 : ℤ), (1 : ℤ)) =
      some (some ((0 : ℤ), (0 : ℤ))) from rfl]
  rw [show (some (some ((0 : ℤ), (0 : ℤ)))).getD (none : Option (ℤ × ℤ)) =
      some ((0 : ℤ), (0 : ℤ)) from rfl]
  rw [show (4 : ℕ) = 3 + 1 from rfl]
  rw [reconLoop]
  rw [show dget ([(((1 : ℤ), (1 : ℤ)), some ((0 : ℤ), (0 : ℤ))),
      (((0 : ℤ), (1 : ℤ)), some ((0 : ℤ), (0 : ℤ))),
      (((1 : ℤ), (0 : ℤ)), some ((0 : ℤ), (0 : ℤ))),
      (((0 : ℤ), (0 : ℤ)), (none : Option (ℤ × ℤ)))]) ((0 : ℤ), (0 : ℤ)) =
      some (none : Option (ℤ × ℤ)) from rfl]
  rw [show (some (none : Option (ℤ × ℤ))).getD (none : Option (ℤ × ℤ)) =
      (none : Option (ℤ × ℤ)) from rfl]
  rw [reconLoop]
  simp only [gridToPt]
  norm_num

/-- C1 (counterexample): on the empty (obstacle-free) grid, the A* search
from `(0.49, 0.49)` to `(0.51, 0.51)` returns the polyline
`[(0, 0), (1, 1)]` of length `√2 ≈ 1.414`, while the Euclidean start–goal
distance is `0.02·√2 ≈ 0.028`: the gap `0.98·√2` exceeds the one-grid-step
tolerance `GRID_STEP_CM = 1`, because both endpoints round to grid cells
and the 8-connected path is measured between cell centres. -/
theorem astar_free_grid_length_gap :
    astar ((0.49 : ℝ), (0.49 : ℝ)) ((0.51 : ℝ), (0.51 : ℝ)) [] GRID_STEP_CM =
        some [((0 : ℝ), (0 : ℝ)), ((1 : ℝ), (1 : ℝ))] ∧
      ¬ |polylineLength [((0 : ℝ), (0 : ℝ)), ((1 : ℝ), (1 : ℝ))] -
            distCm ((0.49 : ℝ), (0.49 : ℝ)) ((0.51 : ℝ), (0.51 : ℝ))| ≤ GRID_STEP_CM := by
  refine ⟨astar_free_eval, ?_⟩
  rw [GRID_STEP_CM]
  intro hle
  have hP : polylineLength [((0 : ℝ), (0 : ℝ)), ((1 : ℝ), (1 : ℝ))] = Real.sqrt 2 := by
    rw [polylineLength, polylineLength, distCm, mathHypot]
    norm_num
  have hD : distCm ((0.49 : ℝ), (0.49 : ℝ)) ((0.51 : ℝ), (0.51 : ℝ)) =
      Real.sqrt 0.0008 := by
    rw [distCm, mathHypot]
    norm_num
  have h1 : Real.sqrt 0.0008 < 0.1 := by
    have hm := Real.sqrt_lt_sqrt (by norm_num : (0 : ℝ) ≤ 0.0008)
      (by norm_num : (0.0008 : ℝ) < 0.01)
    rwa [show Real.sqrt 0.01 = 0.1 from by
      rw [show (0.01 : ℝ) = 0.1 ^ 2 from by norm_num,
        Real.sqrt_sq (by norm_num : (0 : ℝ) ≤ 0.1)]] at hm
  have h2 : (1.1 : ℝ) < Real.sqrt 2 := by
    rw [show (1.1 : ℝ) = Real.sqrt 1.21 from by
      rw [show (1.21 : ℝ) = 1.1 ^ 2 from by norm_num,
        Real.sqrt_sq (by norm_num : (0 : ℝ) ≤ 1.1)]]
    exact Real.sqrt_lt_sqrt (by norm_num) (by norm_num)
  rw [hP, hD] at hle
  rw [abs_of_pos (by linarith)] at hle
  linarith

/-- C1 (witness of the amended bound): at the concrete obstacle-free
instance the returned polyline is nonempty and its length is at least the
distance between its own endpoints. -/
theorem astar_some_length_ge_endpoint_dist_witness :
    astar ((0.49 : ℝ), (0.49 : ℝ)) ((0.51 : ℝ), (0.51 : ℝ)) [] GRID_STEP_CM =
        some [((0 : ℝ), (0 : ℝ)), ((1 : ℝ), (1 : ℝ))] ∧
      ([((0 : ℝ), (0 : ℝ)), ((1 : ℝ), (1 : ℝ))] ≠ ([] : List Pt) ∧
        distCm (([((0 : ℝ), (0 : ℝ)), ((1 : ℝ), (1 : ℝ))] : List Pt).headD origin)
            (([((0 : ℝ), (0 : ℝ)), ((1 : ℝ), (1 : ℝ))] : List Pt).getLastD origin) ≤
          polylineLength [((0 : ℝ), (0 : ℝ)), ((1 : ℝ), (1 : ℝ))]) :=
  ⟨astar_free_eval,
   astar_some_length_ge_endpoint_dist ((0.49 : ℝ), (0.49 : ℝ)) ((0.51 : ℝ), (0.51 : ℝ))
     [] GRID_STEP_CM [((0 : ℝ), (0 : ℝ)), ((1 : ℝ), (1 : ℝ))] astar_free_eval⟩

/-- Python `min(xs, key=f)`: first minimiser (strict improvement keeps the
earliest); `origin` on the empty list, never hit at the call site
(`remaining` is nonempty inside the loop). -/
noncomputable def pyMinBy (f : Pt → ℝ) : List Pt → Pt
  | [] => origin
  | x :: rest => rest.foldl (fun best y => if f y < f best then y else best) x

/-- Python `list.remove`: drop the first occurrence. -/
noncomputable def pyRemove : List Pt → Pt → List Pt
  | [], _ => []
  | x :: rest, v => if x = v then rest else x :: pyRemove rest v

/-- Insert after every entry whose key is ≤, the insertion step of a stable
ascending sort by first component. -/
noncomputable def insortByFst (x : ℝ × Pt × List Pt) :
    List (ℝ × Pt × List Pt) → List (ℝ × Pt × List Pt)
  | [] => [x]
  | y :: rest => if y.1 ≤ x.1 then y :: insortByFst x rest else x :: y :: rest

/-- `scored.sort(key=lambda t: t[0])`: Python list sort is stable and
ascending, modelled by stable insertion. -/
noncomputable def pySortByFst (l : List (ℝ × Pt × List Pt)) :
    List (ℝ × Pt × List Pt) :=
  l.foldl (fun acc x => insortByFst x acc) []

/-- One greedy choice of `build_auto_path` (lines 595-607): score every
remaining target by routed length and take the sorted head; if no target is
routable, fall back to the Euclidean-nearest target, with a direct segment
only when that segment is clear (else the planner result, possibly `None`). -/
noncomputable def greedyChoose (obstacles : List Obstacle) (cur : Pt)
    (remaining : List Pt) : Pt × Option (List Pt) :=
  let scored := remaining.filterMap fun r =>
    (planSegmentWithClearance cur r obstacles).map fun poly =>
      (polylineLength poly, r, poly)
  if scored.isEmpty then
    let chosen := pyMinBy (fun r => distCm cur r) remaining
    (chosen,
     if segmentIsClear cur chosen obstacles = true then some [cur, chosen]
     else planSegmentWithClearance cur chosen obstacles)
  else
    let t := (pySortByFst scored).headD (0, origin, [])
    (t.2.1, some t.2.2)

/-- `if poly and len(poly) > 1: order += poly[1:]` (lines 609-612). -/
noncomputable def appendPoly (order : List Pt) : Option (List Pt) → List Pt
  | some p => if 1 < p.length then order ++ p.drop 1 else order
  | none => order

/-- The `while remaining:` greedy loop (lines 594-614), returning the
accumulated `order` and the final `cur`; each iteration removes the chosen
target, so `remaining.length` steps of fuel always suffice. -/
noncomputable def greedyLoop (obstacles : List Obstacle) :
    ℕ → List Pt → Pt → List Pt → List Pt × Pt
  | 0, _, cur, order => (order, cur)
  | _ + 1, [], cur, order => (order, cur)
  | fuel + 1, r0 :: rest, cur, order =>
    let cp := greedyChoose obstacles cur (r0 :: rest)
    greedyLoop obstacles fuel (pyRemove (r0 :: rest) cp.1) cp.1
      (appendPoly order cp.2)

/-- `if len(checkpoints) == 0 or wp != checkpoints[-1]:
checkpoints.append(wp)` (lines 622-624). -/
noncomputable def dedupAppend (cps : List Pt) (wp : Pt) : List Pt :=
  if cps.length = 0 ∨ wp ≠ cps.getLastD origin then cps ++ [wp] else cps

/-- `if wp != checkpoints[-1]: checkpoints.append(wp)` (lines 627-628). -/
noncomputable def dedupAppendTail (cps : List Pt) (wp : Pt) : List Pt :=
  if wp ≠ cps.getLastD origin then cps ++ [wp] else cps

/-- The Multi-Target Router of `build_auto_path` (lines 591-628): greedy
target routing from `s`, the tail leg to `e` (degrading to `[cur, e]` when
the planner fails), and the duplicate-collapsing checkpoint build. -/
noncomputable def buildCheckpoints (s e : Pt) (reds : List Pt)
    (obstacles : List Obstacle) : List Pt :=
  let oc := greedyLoop obstacles reds.length reds s []
  let tail := (planSegmentWithClearance oc.2 e obstacles).getD [oc.2, e]
  let cps1 := oc.1.foldl dedupAppend [s]
  (tail.drop 1).foldl dedupAppendTail cps1

lemma greedyChoose_blocked :
    greedyChoose obsBlockedGoal ((5 : ℝ), (5 : ℝ)) [((30 : ℝ), (30 : ℝ))] =
      (((30 : ℝ), (30 : ℝ)), none) := by
  rw [greedyChoose]
  rw [show ([((30 : ℝ), (30 : ℝ))] : List Pt).filterMap (fun r =>
      (planSegmentWithClearance ((5 : ℝ), (5 : ℝ)) r obsBlockedGoal).map fun poly =>
        (polylineLength poly, r, poly)) = [] from by
    rw [List.filterMap_cons_none, List.filterMap_nil]
    rw [plan_none_5_30]
    rfl]
  dsimp only
  rw [if_pos (show ([] : List (ℝ × Pt × List Pt)).isEmpty = true from rfl)]
  rw [show pyMinBy (fun r => distCm ((5 : ℝ), (5 : ℝ)) r) [((30 : ℝ), (30 : ℝ))] =
      ((30 : ℝ), (30 : ℝ)) from rfl]
  rw [segClear_5_30]
  rw [if_neg (by simp)]
  rw [plan_none_5_30]

/-- C3 (counterexample): with one red target at `(30, 30)` sitting under a
black-fruit obstacle, no leg to it is routable and the direct segment is
not clear, so the fallback appends nothing: the router's checkpoint output
is `[(5,5), (100,100)]` and the mandatory target `(30, 30)` is missing —
the router neither visits it nor forces a direct segment to it. -/
theorem router_drops_unroutable_target :
    buildCheckpoints ((5 : ℝ), (5 : ℝ)) ((100 : ℝ), (100 : ℝ)) [((30 : ℝ), (30 : ℝ))]
        obsBlockedGoal = [((5 : ℝ), (5 : ℝ)), ((100 : ℝ), (100 : ℝ))] ∧
      ((30 : ℝ), (30 : ℝ)) ∉ [((5 : ℝ), (5 : ℝ)), ((100 : ℝ), (100 : ℝ))] := by
  constructor
  · rw [buildCheckpoints]
    rw [show ([((30 : ℝ), (30 : ℝ))] : List Pt).length = 0 + 1 from rfl]
    rw [greedyLoop]
    rw [greedyChoose_blocked]
    dsimp only
    rw [show pyRemove [((30 : ℝ), (30 : ℝ))] ((30 : ℝ), (30 : ℝ)) = [] from by
      rw [pyRemove]
      rw [if_pos rfl]]
    rw [show appendPoly ([] : List Pt) none = [] from rfl]
    rw [greedyLoop]
    dsimp only
    rw [plan_none_30_100]
    rw [show (none : Option (List Pt)).getD
        [((30 : ℝ), (30 : ℝ)), ((100 : ℝ), (100 : ℝ))] =
        [((30 : ℝ), (30 : ℝ)), ((100 : ℝ), (100 : ℝ))] from rfl]
    rw [List.foldl_nil]
    rw [show ([((30 : ℝ), (30 : ℝ)), ((100 : ℝ), (100 : ℝ))] : List Pt).drop 1 =
        [((100 : ℝ), (100 : ℝ))] from rfl]
    rw [List.foldl_cons, List.foldl_nil]
    rw [dedupAppendTail]
    rw [show ([((5 : ℝ), (5 : ℝ))] : List Pt).getLastD origin = ((5 : ℝ), (5 : ℝ))
      from rfl]
    rw [if_pos (show ((100 : ℝ), (100 : ℝ)) ≠ ((5 : ℝ), (5 : ℝ)) from by
      intro h
      exact absurd (congrArg Prod.fst h) (by norm_num))]
    rfl
  · intro hm
    rcases List.mem_cons.mp hm with h | hm2
    · exact absurd (congrArg Prod.fst h) (by norm_num)
    rcases List.mem_cons.mp hm2 with h | hm3
    · exact absurd (congrArg Prod.fst h) (by norm_num)
    exact List.not_mem_nil _ hm3

lemma headD_mem_of_ne_nil {α : Type} (l : List α) (d : α) (h : l ≠ []) :
    l.headD d ∈ l := by
  cases l with
  | nil => exact absurd rfl h
  | cons a t => simp

lemma insortByFst_mem (x : ℝ × Pt × List Pt) :
    ∀ (l : List (ℝ × Pt × List Pt)) (y : ℝ × Pt × List Pt),
      y ∈ insortByFst x l → y = x ∨ y ∈ l
  | [], y, h => Or.inl (List.mem_singleton.mp h)
  | z :: rest, y, h => by
    rw [insortByFst] at h
    split_ifs at h with hc
    · rcases List.mem_cons.mp h with h1 | h1
      · exact Or.inr (h1 ▸ List.mem_cons_self z rest)
      · rcases insortByFst_mem x rest y h1 with h2 | h2
        · exact Or.inl h2
        · exact Or.inr (List.mem_cons_of_mem z h2)
    · rcases List.mem_cons.mp h with h1 | h1
      · exact Or.inl h1
      · exact Or.inr h1

lemma insortByFst_length (x : ℝ × Pt × List Pt) :
    ∀ l : List (ℝ × Pt × List Pt), (insortByFst x l).length = l.length + 1
  | [] => rfl
  | z :: rest => by
    rw [insortByFst]
    split_ifs with hc
    · simp [insortByFst_length x rest]
    · simp

lemma sortFold_mem :
    ∀ (l acc : List (ℝ × Pt × List Pt)) (y : ℝ × Pt × List Pt),
      y ∈ l.foldl (fun a x => insortByFst x a) acc → y ∈ acc ∨ y ∈ l
  | [], _, _, h => Or.inl h
  | z :: rest, acc, y, h => by
    rw [List.foldl_cons] at h
    rcases sortFold_mem rest _ y h with h1 | h1
    · rcases insortByFst_mem z acc y h1 with h2 | h2
      · exact Or.inr (h2 ▸ List.mem_cons_self z rest)
      · exact Or.inl h2
    · exact Or.inr (List.mem_cons_of_mem z h1)

lemma sortFold_length :
    ∀ l acc : List (ℝ × Pt × List Pt),
      (l.foldl (fun a x => insortByFst x a) acc).length = acc.length + l.length
  | [], acc => by simp
  | z :: rest, acc => by
    rw [List.foldl_cons, sortFold_length rest _, insortByFst_length]
    simp only [List.length_cons]
    omega

lemma pySortByFst_mem (l : List (ℝ × Pt × List Pt)) (y : ℝ × Pt × List Pt)
    (h : y ∈ pySortByFst l) : y ∈ l := by
  rcases sortFold_mem l [] y h with h1 | h1
  · exact absurd h1 (List.not_mem_nil y)
  · exact h1

lemma pySortByFst_ne_nil (l : List (ℝ × Pt × List Pt)) (h : l ≠ []) :
    pySortByFst l ≠ [] := by
  have hlen : (pySortByFst l).length = l.length := by
    rw [pySortByFst, sortFold_length]
    simp
  intro he
  rw [he] at hlen
  exact h (List.length_eq_zero.mp hlen.symm)

lemma pyRemove_subset : ∀ (l : List Pt) (v x : Pt), x ∈ pyRemove l v → x ∈ l
  | [], _, x, h => absurd h (List.not_mem_nil x)
  | z :: rest, v, x, h => by
    rw [pyRemove] at h
    split_ifs at h with hc
    · exact List.mem_cons_of_mem z h
    · rcases List.mem_cons.mp h with h1 | h1
      · exact h1 ▸ List.mem_cons_self z rest
      · exact List.mem_cons_of_mem z (pyRemove_subset rest v x h1)

lemma pyRemove_mem : ∀ (l : List Pt) (v x : Pt), x ∈ l → x ∈ pyRemove l v ∨ x = v
  | [], _, x, h => absurd h (List.not_mem_nil x)
  | z :: rest, v, x, h => by
    rw [pyRemove]
    split_ifs with hc
    · rcases List.mem_cons.mp h with h1 | h1
      · exact Or.inr (h1.trans hc)
      · exact Or.inl h1
    · rcases List.mem_cons.mp h with h1 | h1
      · exact Or.inl (h1 ▸ List.mem_cons_self z _)
      · rcases pyRemove_mem rest v x h1 with h2 | h2
        · exact Or.inl (List.mem_cons_of_mem z h2)
        · exact Or.inr h2

lemma pyRemove_length : ∀ (l : List Pt) (v : Pt), v ∈ l →
    (pyRemove l v).length + 1 = l.length
  | [], v, h => absurd h (List.not_mem_nil v)
  | z :: rest, v, h => by
    rw [pyRemove]
    split_ifs with hc
    · simp
    · rcases List.mem_cons.mp h with h1 | h1
      · exact absurd h1.symm hc
      · have := pyRemove_length rest v h1
        simp only [List.length_cons]
        omega

lemma getLastD_mem : ∀ (l : List Pt), l ≠ [] → ∀ d : Pt, l.getLastD d ∈ l
  | [], h, _ => absurd rfl h
  | [a], _, d => by
    rw [show ([a] : List Pt).getLastD d = a from rfl]
    exact List.mem_singleton_self a
  | a :: b :: rest, _, d => by
    rw [show (a :: b :: rest : List Pt).getLastD d = (b :: rest).getLastD a from rfl]
    exact List.mem_cons_of_mem a (getLastD_mem (b :: rest) (by simp) a)

lemma getLastD_mem_drop (l : List Pt) (h : 2 ≤ l.length) (d : Pt) :
    l.getLastD d ∈ l.drop 1 := by
  match l, h with
  | a :: b :: rest, _ =>
    rw [show (a :: b :: rest : List Pt).getLastD d = (b :: rest).getLastD a from rfl]
    rw [show (a :: b :: rest : List Pt).drop 1 = b :: rest from rfl]
    exact getLastD_mem (b :: rest) (by simp) a

lemma appendPoly_mono (order : List Pt) (po : Option (List Pt)) (x : Pt)
    (h : x ∈ order) : x ∈ appendPoly order po := by
  match po with
  | none => exact h
  | some p =>
    rw [appendPoly]
    split_ifs
    · exact List.mem_append_left _ h
    · exact h

lemma dedupFold_ne_nil : ∀ (order cps : List Pt), cps ≠ [] →
    order.foldl dedupAppend cps ≠ []
  | [], _, h => h
  | wp :: rest, cps, h => by
    rw [List.foldl_cons]
    refine dedupFold_ne_nil rest _ ?_
    rw [dedupAppend]
    split_ifs
    · simp
    · exact h

lemma dedupFold_mem : ∀ (order cps : List Pt), cps ≠ [] →
    ∀ x : Pt, x ∈ cps ∨ x ∈ order → x ∈ order.foldl dedupAppend cps
  | [], _, _, x, hx => by
    rcases hx with h1 | h1
    · exact h1
    · exact absurd h1 (List.not_mem_nil x)
  | wp :: rest, cps, h, x, hx => by
    rw [List.foldl_cons]
    have hne : dedupAppend cps wp ≠ [] := by
      rw [dedupAppend]
      split_ifs
      · simp
      · exact h
    refine dedupFold_mem rest _ hne x ?_
    rcases hx with h1 | h1
    · left
      rw [dedupAppend]
      split_ifs
      · exact List.mem_append_left _ h1
      · exact h1
    · rcases List.mem_cons.mp h1 with h2 | h2
      · left
        rw [dedupAppend]
        split_ifs with hc
        · rw [h2]
          exact List.mem_append_right _ (List.mem_singleton_self wp)
        · push_neg at hc
          rw [h2, hc.2]
          exact getLastD_mem cps h origin
      · exact Or.inr h2

lemma dedupFoldTail_ne_nil : ∀ (order cps : List Pt), cps ≠ [] →
    order.foldl dedupAppendTail cps ≠ []
  | [], _, h => h
  | wp :: rest, cps, h => by
    rw [List.foldl_cons]
    refine dedupFoldTail_ne_nil rest _ ?_
    rw [dedupAppendTail]
    split_ifs
    · simp
    · exact h

lemma dedupFoldTail_mem : ∀ (order cps : List Pt), cps ≠ [] →
    ∀ x : Pt, x ∈ cps ∨ x ∈ order → x ∈ order.foldl dedupAppendTail cps
  | [], _, _, x, hx => by
    rcases hx with h1 | h1
    · exact h1
    · exact absurd h1 (List.not_mem_nil x)
  | wp :: rest, cps, h, x, hx => by
    rw [List.foldl_cons]
    have hne : dedupAppendTail cps wp ≠ [] := by
      rw [dedupAppendTail]
      split_ifs
      · simp
      · exact h
    refine dedupFoldTail_mem rest _ hne x ?_
    rcases hx with h1 | h1
    · left
      rw [dedupAppendTail]
      split_ifs
      · exact List.mem_append_left _ h1
      · exact h1
    · rcases List.mem_cons.mp h1 with h2 | h2
      · left
        rw [dedupAppendTail]
        split_ifs with hc
        · rw [h2]
          exact List.mem_append_right _ (List.mem_singleton_self wp)
        · push_neg at hc
          rw [h2, hc]
          exact getLastD_mem cps h origin
      · exact Or.inr h2

lemma greedyChoose_routable (obstacles : List Obstacle) (cur : Pt)
    (remaining : List Pt) (hne : remaining ≠ [])
    (H : ∀ r ∈ remaining, ∃ poly,
        planSegmentWithClearance cur r obstacles = some poly ∧
        2 ≤ poly.length ∧ poly.getLastD origin = r) :
    (greedyChoose obstacles cur remaining).1 ∈ remaining ∧
    ∃ q, (greedyChoose obstacles cur remaining).2 = some q ∧ 2 ≤ q.length ∧
      q.getLastD origin = (greedyChoose obstacles cur remaining).1 := by
  cases remaining with
  | nil => exact absurd rfl hne
  | cons r0 rest =>
    obtain ⟨p0, hp0, _, _⟩ := H r0 (List.mem_cons_self r0 rest)
    have hf0 : (planSegmentWithClearance cur r0 obstacles).map
        (fun poly => (polylineLength poly, r0, poly)) =
        some (polylineLength p0, r0, p0) := by
      rw [hp0]
      rfl
    have hscored : ((r0 :: rest).filterMap fun r =>
        (planSegmentWithClearance cur r obstacles).map fun poly =>
          (polylineLength poly, r, poly)) =
        (polylineLength p0, r0, p0) :: (rest.filterMap fun r =>
          (planSegmentWithClearance cur r obstacles).map fun poly =>
            (polylineLength poly, r, poly)) := by
      rw [List.filterMap_cons, hf0]
    have hsne : ((r0 :: rest).filterMap fun r =>
        (planSegmentWithClearance cur r obstacles).map fun poly =>
          (polylineLength poly, r, poly)) ≠ [] := by
      rw [hscored]
      simp
    rw [greedyChoose]
    rw [if_neg (by
      rw [List.isEmpty_iff]
      exact hsne)]
    have hmem : ((pySortByFst ((r0 :: rest).filterMap fun r =>
        (planSegmentWithClearance cur r obstacles).map fun poly =>
          (polylineLength poly, r, poly))).headD (0, origin, [])) ∈
        ((r0 :: rest).filterMap fun r =>
          (planSegmentWithClearance cur r obstacles).map fun poly =>
            (polylineLength poly, r, poly)) :=
      pySortByFst_mem _ _ (headD_mem_of_ne_nil _ _ (pySortByFst_ne_nil _ hsne))
    obtain ⟨a, ha, hfa⟩ := List.mem_filterMap.mp hmem
    obtain ⟨q, hq, hgq⟩ := Option.map_eq_some'.mp hfa
    obtain ⟨poly, hpoly, hpl, hplast⟩ := H a ha
    rw [hq] at hpoly
    obtain rfl := Option.some_inj.mp hpoly
    rw [← hgq]
    dsimp only
    exact ⟨ha, q, rfl, hpl, hplast⟩

lemma greedyLoop_covers (obstacles : List Obstacle) :
    ∀ (fuel : ℕ) (remaining : List Pt) (cur : Pt) (order : List Pt),
      remaining.length ≤ fuel →
      (∀ p r, r ∈ remaining → ∃ poly,
          planSegmentWithClearance p r obstacles = some poly ∧
          2 ≤ poly.length ∧ poly.getLastD origin = r) →
      ∀ x : Pt, x ∈ remaining ∨ x ∈ order →
        x ∈ (greedyLoop obstacles fuel remaining cur order).1
  | 0, remaining, cur, order, hlen, H, x, hx => by
    rw [greedyLoop]
    rcases hx with h | h
    · rw [List.length_eq_zero.mp (Nat.le_zero.mp hlen)] at h
      exact absurd h (List.not_mem_nil x)
    · exact h
  | fuel + 1, [], cur, order, hlen, H, x, hx => by
    rw [greedyLoop]
    rcases hx with h | h
    · exact absurd h (List.not_mem_nil x)
    · exact h
  | fuel + 1, r0 :: rest, cur, order, hlen, H, x, hx => by
    rw [greedyLoop]
    obtain ⟨hc1, q, hq2, hql, hqlast⟩ :=
      greedyChoose_routable obstacles cur (r0 :: rest) (by simp)
        (fun r hr => H cur r hr)
    refine greedyLoop_covers obstacles fuel _ _ _ ?_ ?_ x ?_
    · have hrl := pyRemove_length (r0 :: rest) _ hc1
      simp only [List.length_cons] at hlen hrl
      omega
    · intro p r hr
      exact H p r (pyRemove_subset _ _ _ hr)
    · rcases hx with h | h
      · rcases pyRemove_mem (r0 :: rest)
          ((greedyChoose obstacles cur (r0 :: rest)).1) x h with h1 | h1
        · exact Or.inl h1
        · right
          rw [hq2, appendPoly]
          rw [if_pos (by omega)]
          refine List.mem_append_right _ ?_
          rw [h1, ← hqlast]
          exact getLastD_mem_drop q hql origin
      · exact Or.inr (appendPoly_mono order _ x h)

/-- C3 (amended): whenever every leg to every remaining mandatory target is
routable — `_plan_segment_with_clearance` succeeds from any position with a
polyline of at least two waypoints ending at the target — the Multi-Target
Router's checkpoint sequence contains every mandatory target.  Without that
routability assumption the guarantee fails: an unroutable target whose
direct segment is also unclear is silently dropped (the fallback appends no
waypoints), so neither "visits every target" nor "forces a direct segment"
holds on infeasible maps. -/
theorem router_visits_routable_targets (s e : Pt) (reds : List Pt)
    (obstacles : List Obstacle)
    (H : ∀ p r, r ∈ reds → ∃ poly,
        planSegmentWithClearance p r obstacles = some poly ∧
        2 ≤ poly.length ∧ poly.getLastD origin = r) :
    ∀ r ∈ reds, r ∈ buildCheckpoints s e reds obstacles := by
  intro r hr
  rw [buildCheckpoints]
  refine dedupFoldTail_mem _ _ (dedupFold_ne_nil _ _ (by simp)) r (Or.inl ?_)
  refine dedupFold_mem _ _ (by simp) r (Or.inr ?_)
  exact greedyLoop_covers obstacles reds.length reds s [] le_rfl H r (Or.inl hr)

/-- C3 (witness): with no obstacles every leg is a clear direct segment, so
the planner returns `[p, r]` for every pair, and the single mandatory
target `(30, 30)` appears in the router's checkpoint output. -/
theorem router_visits_routable_targets_witness :
    ((30 : ℝ), (30 : ℝ)) ∈ buildCheckpoints ((5 : ℝ), (5 : ℝ)) ((100 : ℝ), (100 : ℝ))
      [((30 : ℝ), (30 : ℝ))] [] :=
  router_visits_routable_targets ((5 : ℝ), (5 : ℝ)) ((100 : ℝ), (100 : ℝ))
    [((30 : ℝ), (30 : ℝ))] []
    (fun p r _ => ⟨[p, r],
      by
        rw [planSegmentWithClearance,
          if_pos (show segmentIsClear p r [] = true from rfl)],
      by simp,
      rfl⟩)
    ((30 : ℝ), (30 : ℝ)) (List.mem_singleton_self _)

end PathPlanner
